import Mathlib

/-!
Verification of the transporter backend's delivery-completion workflow,
rating aggregation, driver management and dashboard analytics.

The definitions below are a shallow embedding of the JavaScript services
(`delivery.service.js`, `driver.service.js`, `request.service.js`,
`dashboard.service.js` plus the `DeliveryHelper` functions). Database rows
become Lean structures, the database becomes an explicit record of row
lists plus auto-increment counters, Sequelize transactions become explicit
state passing with rollback-on-error, and JavaScript numbers become `ℚ`
(all rating scores are small integers, so exactness assumptions are benign).
-/

namespace Transporter

/-- Status enum of `TransportationRequest.status` (request.model.js). -/
inductive Status where
  | planned
  | processing
  | completed
  | cancelled
deriving DecidableEq, Repr

/-- Driver variant enum (`type` column of driver.model.js). -/
inductive DriverType where
  | transporter
  | in_house
deriving DecidableEq, Repr

/-- A `transportation_requests` row, projected to the fields the workflow
and analytics read (request.model.js). -/
structure Request where
  id : Nat
  status : Status
  pickUpDateTime : Nat
  estimatedCost : Option ℚ
deriving DecidableEq, Repr

/-- A `deliveries` row (delivery.model.js). -/
structure Delivery where
  id : Nat
  requestId : Nat
  actualPickupDateTime : Nat
  actualTruckCount : Nat
  invoiceAmount : ℚ
  deliveryNotes : Option String
  loggedBy : String
deriving DecidableEq, Repr

/-- A `drivers` row (driver.model.js); `overallRating`, `totalDeliveries`
and `lastDelivery` are the running aggregates maintained by the workflow. -/
structure Driver where
  id : Nat
  name : String
  dtype : DriverType
  transportCompany : Option String
  phone : Option String
  licenseNumber : Option String
  employeeId : Option String
  department : Option String
  hireDate : Option Nat
  overallRating : ℚ
  totalDeliveries : Nat
  lastDelivery : Option Nat
deriving DecidableEq, Repr

/-- A `driver_ratings` row (delivery.model.js). Nullable integer columns
are `Option Nat`. -/
structure DriverRating where
  id : Nat
  deliveryId : Nat
  driverId : Nat
  punctuality : Option Nat
  professionalism : Option Nat
  deliveryQuality : Option Nat
  communication : Option Nat
  safety : Option Nat
  policyCompliance : Option Nat
  fuelEfficiency : Option Nat
  overallRating : Option Nat
  comments : Option String
deriving DecidableEq, Repr

/-- The relational store: the four tables plus their auto-increment
counters. -/
structure DB where
  requests : List Request
  deliveries : List Delivery
  drivers : List Driver
  ratings : List DriverRating
  nextRequestId : Nat
  nextDeliveryId : Nat
  nextDriverId : Nat
  nextRatingId : Nat
deriving DecidableEq, Repr

/-- `TransportationRequest.findByPk`. -/
def findRequest (db : DB) (i : Nat) : Option Request :=
  db.requests.find? (fun r => decide (r.id = i))

/-- `Driver.findByPk`. -/
def findDriver (db : DB) (i : Nat) : Option Driver :=
  db.drivers.find? (fun d => decide (d.id = i))

/-- `DriverRating.findByPk`. -/
def findRating (db : DB) (i : Nat) : Option DriverRating :=
  db.ratings.find? (fun r => decide (r.id = i))

/-- All deliveries whose `requestId` matches (the `where` clause of
`Delivery.findOne({ where: { requestId } })`). -/
def deliveriesFor (db : DB) (requestId : Nat) : List Delivery :=
  db.deliveries.filter (fun d => decide (d.requestId = requestId))

/-- `Delivery.findOne({ where: { requestId } })`. -/
def findDeliveryByRequest (db : DB) (requestId : Nat) : Option Delivery :=
  (deliveriesFor db requestId).head?

/-- `DriverRating.findAll({ where: { deliveryId } })`. -/
def ratingsForDelivery (db : DB) (deliveryId : Nat) : List DriverRating :=
  db.ratings.filter (fun r => decide (r.deliveryId = deliveryId))

/-- `DriverRating` rows referencing a driver (`where: { driverId }`). -/
def ratingsOfDriver (ratings : List DriverRating) (driverId : Nat) : List DriverRating :=
  ratings.filter (fun r => decide (r.driverId = driverId))

/-- Generic row update: apply `f` to every row whose id equals `i`
(an `UPDATE ... WHERE id = i`). -/
def updateWhere {α : Type} (idOf : α → Nat) (i : Nat) (f : α → α) (l : List α) : List α :=
  l.map (fun a => if idOf a = i then f a else a)

/-- `request.update({...})` on the row with the given id. -/
def updateRequestRow (db : DB) (i : Nat) (f : Request → Request) : DB :=
  { db with requests := updateWhere (fun r => r.id) i f db.requests }

/-- `Driver.update({...}, { where: { id } })`. -/
def updateDriverRow (db : DB) (i : Nat) (f : Driver → Driver) : DB :=
  { db with drivers := updateWhere (fun d => d.id) i f db.drivers }

/-- `driverRating.update({...})` on the row with the given id. -/
def updateRatingRow (db : DB) (i : Nat) (f : DriverRating → DriverRating) : DB :=
  { db with ratings := updateWhere (fun r => r.id) i f db.ratings }

/-- `delivery.update({...})` on the row with the given id. -/
def updateDeliveryRow (db : DB) (i : Nat) (f : Delivery → Delivery) : DB :=
  { db with deliveries := updateWhere (fun d => d.id) i f db.deliveries }

/-- JavaScript `Math.round` (round half towards positive infinity). -/
def jsRound (q : ℚ) : ℤ := ⌊q + 1 / 2⌋

/-- Round to one decimal, as `Math.round(x * 10) / 10` or
`parseFloat(x.toFixed(1))` for the non-negative values that occur here. -/
def round1 (q : ℚ) : ℚ := (jsRound (q * 10) : ℚ) / 10

/-- JavaScript truthiness of an optional numeric id: `undefined`, `null`
and `0` are falsy. -/
def truthyNat : Option Nat → Option Nat
  | some 0 => none
  | o => o

/- ===== Rating Aggregator (driver.service.js) ===== -/

/-- Result shape of `calculateRatingSummary`. -/
structure RatingSummary where
  averageOverall : ℚ
  averagePunctuality : ℚ
  averageProfessionalism : ℚ
  averageDeliveryQuality : ℚ
  averageCommunication : ℚ
  averageSafety : ℚ
  totalRatings : Nat
deriving DecidableEq, Repr

/-- One dimension of `calculateRatingSummary`: total the scores with
`|| 0` for missing values, divide by the rating count, round to one
decimal as `parseFloat((total / count).toFixed(1))`. -/
def dimAverage (f : DriverRating → Option Nat) (ratings : List DriverRating) : ℚ :=
  round1 (((ratings.map (fun r => (((f r).getD 0 : Nat) : ℚ))).sum) / (ratings.length : ℚ))

/-- `calculateRatingSummary(ratings)`: per-dimension arithmetic mean of
the scores (null scored as 0 via `|| 0`), rounded to one decimal; the
all-zero summary on an empty list. -/
def calculateRatingSummary (ratings : List DriverRating) : RatingSummary :=
  if ratings.length = 0 then
    { averageOverall := 0, averagePunctuality := 0, averageProfessionalism := 0
      averageDeliveryQuality := 0, averageCommunication := 0, averageSafety := 0
      totalRatings := 0 }
  else
    { averageOverall := dimAverage (fun r => r.overallRating) ratings
      averagePunctuality := dimAverage (fun r => r.punctuality) ratings
      averageProfessionalism := dimAverage (fun r => r.professionalism) ratings
      averageDeliveryQuality := dimAverage (fun r => r.deliveryQuality) ratings
      averageCommunication := dimAverage (fun r => r.communication) ratings
      averageSafety := dimAverage (fun r => r.safety) ratings
      totalRatings := ratings.length }

/-- Core of `calculateDriverOverallRating`: SQL `AVG(overall_rating)`
ignores NULLs, `COUNT(id)` counts all rows of the driver; a missing or
NULL average falls back to 0, otherwise it is rounded to one decimal. -/
def overallFromRatings (ratings : List DriverRating) (driverId : Nat) : ℚ :=
  let rows := ratingsOfDriver ratings driverId
  if rows.length = 0 then 0
  else
    let vals := rows.filterMap (fun r => r.overallRating)
    if vals.length = 0 then 0
    else round1 (((vals.map (fun n => (n : ℚ))).sum) / vals.length)

/-- `calculateDriverOverallRating(driverId)` against the store. -/
def calculateDriverOverallRating (db : DB) (driverId : Nat) : ℚ :=
  overallFromRatings db.ratings driverId

/- ===== deleteDriver (driver.service.js) ===== -/

/-- Result payload of a successful `deleteDriver`. -/
structure DeleteDriverResult where
  driverId : Nat
deriving DecidableEq, Repr

/-- `deleteDriver(driverId)`: inside one transaction, 404 if the driver is
absent, refuse if any DriverRating references it, else destroy the row.
The returned `DB` is the post-transaction state (unchanged on error,
matching the rollback). -/
def deleteDriver (db : DB) (driverId : Nat) : DB × Except String DeleteDriverResult :=
  match findDriver db driverId with
  | none => (db, Except.error "Failed to delete driver: Driver not found")
  | some _ =>
    let deliveryCount := (ratingsOfDriver db.ratings driverId).length
    if 0 < deliveryCount then
      (db, Except.error "Failed to delete driver: Cannot delete driver with existing delivery ratings. Please archive the driver instead.")
    else
      ({ db with drivers := db.drivers.filter (fun d => decide (d.id ≠ driverId)) },
       Except.ok { driverId := driverId })

/- ===== confirmDeliveryCompletion (delivery.service.js) ===== -/

/-- Result payload of `formatDeliveryConfirmationResponse`. -/
structure ConfirmResult where
  requestId : Nat
  status : Status
deriving DecidableEq, Repr

/-- `confirmDeliveryCompletion(requestId)`: row-locked read of the
request; `NotFound` if absent, `InvalidState` unless currently
`processing`, otherwise set status to `completed` and commit. Errors
carry the service's wrapped message; the state is rolled back on error. -/
def confirmDeliveryCompletion (db : DB) (requestId : Nat) : DB × Except String ConfirmResult :=
  match findRequest db requestId with
  | none => (db, Except.error "Failed to confirm delivery completion: Request not found")
  | some req =>
    if req.status = Status.processing then
      (updateRequestRow db requestId (fun r => { r with status := Status.completed }),
       Except.ok { requestId := requestId, status := Status.completed })
    else
      (db, Except.error "Failed to confirm delivery completion: Only processing requests can be confirmed as completed")

/- ===== logDeliveryWithDrivers (delivery.service.js + DeliveryHelper) ===== -/

/-- Rating payload (`extractRatingData` result shape). -/
structure RatingData where
  punctuality : Option Nat
  professionalism : Option Nat
  deliveryQuality : Option Nat
  communication : Option Nat
  safety : Option Nat
  policyCompliance : Option Nat
  fuelEfficiency : Option Nat
  overall : Option Nat
  comments : Option String
deriving DecidableEq, Repr

/-- One driver assignment in the `logDelivery` body: either a reference
to an existing driver (`driver_id` in the simplified format, `id` in the
detailed one) or the fields for inline creation, plus the rating in the
nested (`rating`) or flat format. -/
structure DriverInput where
  driver_id : Option Nat
  id : Option Nat
  name : String
  dtype : DriverType
  transportCompany : Option String
  phone : Option String
  licenseNumber : Option String
  employeeId : Option String
  department : Option String
  hireDate : Option Nat
  rating : Option RatingData
  punctuality : Option Nat
  professionalism : Option Nat
  deliveryQuality : Option Nat
  communication : Option Nat
  safety : Option Nat
  policyCompliance : Option Nat
  fuelEfficiency : Option Nat
  overall : Option Nat
  comments : Option String
deriving DecidableEq, Repr

/-- `extractRatingData(driverData)`: the nested `rating` object when
present, otherwise the flat fields. -/
def extractRatingData (d : DriverInput) : RatingData :=
  match d.rating with
  | some r => r
  | none =>
    { punctuality := d.punctuality, professionalism := d.professionalism
      deliveryQuality := d.deliveryQuality, communication := d.communication
      safety := d.safety, policyCompliance := d.policyCompliance
      fuelEfficiency := d.fuelEfficiency, overall := d.overall, comments := d.comments }

/-- Body of a `logDelivery` call: the delivery fields plus the driver
assignments. -/
structure DeliveryData where
  actualPickupDateTime : Nat
  actualTruckCount : Nat
  invoiceAmount : ℚ
  deliveryNotes : Option String
  drivers : List DriverInput
deriving DecidableEq, Repr

/-- `formatDriverUpdateData(driver)` output: the statistics write queued
for the post-commit refresh (`totalDeliveries + 1`, `new Date()`). -/
structure DriverUpdate where
  id : Nat
  totalDeliveries : Nat
  lastDelivery : Nat
deriving DecidableEq, Repr

/-- `formatDriverUpdateData(driver)` with `now` standing for `new Date()`. -/
def formatDriverUpdateData (d : Driver) (now : Nat) : DriverUpdate :=
  { id := d.id, totalDeliveries := d.totalDeliveries + 1, lastDelivery := now }

/-- Driver resolution inside the driver loop: look up by `driver_id`
(simplified format) or `id` (detailed format) — the JS `if` treats the
value 0 as absent — or create a new `Driver` row inline with the model's
defaults for the aggregates. -/
def resolveDriver (db : DB) (di : DriverInput) : Except String (DB × Driver) :=
  match truthyNat di.driver_id with
  | some i =>
    match findDriver db i with
    | some dr => Except.ok (db, dr)
    | none => Except.error ("Driver with ID " ++ toString i ++ " not found")
  | none =>
    match truthyNat di.id with
    | some i =>
      match findDriver db i with
      | some dr => Except.ok (db, dr)
      | none => Except.error ("Driver with ID " ++ toString i ++ " not found")
    | none =>
      let dr : Driver :=
        { id := db.nextDriverId, name := di.name, dtype := di.dtype
          transportCompany := di.transportCompany, phone := di.phone
          licenseNumber := di.licenseNumber, employeeId := di.employeeId
          department := di.department, hireDate := di.hireDate
          overallRating := 0, totalDeliveries := 0, lastDelivery := none }
      Except.ok ({ db with drivers := db.drivers ++ [dr], nextDriverId := db.nextDriverId + 1 }, dr)

/-- The `DriverRating` row built by `DriverRating.create` inside the
driver loop. -/
def ratingFromData (ratingId deliveryId driverId : Nat) (rd : RatingData) : DriverRating :=
  { id := ratingId, deliveryId := deliveryId, driverId := driverId
    punctuality := rd.punctuality, professionalism := rd.professionalism
    deliveryQuality := rd.deliveryQuality, communication := rd.communication
    safety := rd.safety, policyCompliance := rd.policyCompliance
    fuelEfficiency := rd.fuelEfficiency, overallRating := rd.overall
    comments := rd.comments }

/-- `DriverRating.create` inside the driver loop. -/
def createRating (db : DB) (deliveryId driverId : Nat) (rd : RatingData) : DB :=
  { db with ratings := db.ratings ++ [ratingFromData db.nextRatingId deliveryId driverId rd]
            nextRatingId := db.nextRatingId + 1 }

/-- The `for (const driverData of deliveryData.drivers)` loop: resolve or
create each driver, create its rating row, and accumulate the processed
drivers and the queued statistics updates in order. -/
def processDrivers (now deliveryId : Nat) :
    List DriverInput → DB → Except String (DB × List Driver × List DriverUpdate)
  | [], db => Except.ok (db, [], [])
  | di :: rest, db =>
    match resolveDriver db di with
    | Except.error e => Except.error e
    | Except.ok (db1, dr) =>
      let db2 := createRating db1 deliveryId dr.id (extractRatingData di)
      match processDrivers now deliveryId rest db2 with
      | Except.error e => Except.error e
      | Except.ok (db3, procs, upds) =>
        Except.ok (db3, dr :: procs, formatDriverUpdateData dr now :: upds)

/-- In-transaction result of one `logDelivery` attempt, before the
post-commit statistics refresh. -/
structure AttemptResult where
  delivery : Delivery
  drivers : List Driver
  driverUpdates : List DriverUpdate
deriving DecidableEq, Repr

/-- Destroy an existing delivery and all driver ratings referencing it
(the re-log path of `logDeliveryWithDrivers`). -/
def destroyDeliveryCascade (db : DB) (d : Delivery) : DB :=
  { db with deliveries := db.deliveries.filter (fun x => decide (x.id ≠ d.id))
            ratings := db.ratings.filter (fun r => decide (r.deliveryId ≠ d.id)) }

/-- The `Delivery` row built by `Delivery.create` in the attempt
(`loggedBy: 'System'`). -/
def newDeliveryRow (db : DB) (requestId : Nat) (dd : DeliveryData) : Delivery :=
  { id := db.nextDeliveryId, requestId := requestId
    actualPickupDateTime := dd.actualPickupDateTime
    actualTruckCount := dd.actualTruckCount
    invoiceAmount := dd.invoiceAmount
    deliveryNotes := dd.deliveryNotes, loggedBy := "System" }

/-- Tail of the attempt after the re-log check: create the new `Delivery`
row, run the driver loop, then set the request status to `processing`. -/
def logCreateAndProcess (db : DB) (requestId : Nat) (dd : DeliveryData) (now : Nat) :
    Except String (DB × AttemptResult) :=
  let newDelivery := newDeliveryRow db requestId dd
  let db2 : DB :=
    { db with deliveries := db.deliveries ++ [newDelivery]
              nextDeliveryId := db.nextDeliveryId + 1 }
  match processDrivers now newDelivery.id dd.drivers db2 with
  | Except.error e => Except.error e
  | Except.ok (db3, procs, upds) =>
    Except.ok (updateRequestRow db3 requestId (fun r => { r with status := Status.processing }),
      { delivery := newDelivery, drivers := procs, driverUpdates := upds })

/-- One transaction body of `logDeliveryWithDrivers` (everything between
`sequelize.transaction` and `commit`): status guard, re-log/defensive
duplicate check, delivery creation, driver loop, status write. An error
result models the rollback (the caller keeps the input state). -/
def logDeliveryAttempt (db : DB) (requestId : Nat) (dd : DeliveryData) (now : Nat) :
    Except String (DB × AttemptResult) :=
  match findRequest db requestId with
  | none => Except.error "Request not found"
  | some req =>
    if req.status = Status.planned ∨ req.status = Status.processing then
      match findDeliveryByRequest db requestId with
      | some d =>
        if req.status = Status.processing then
          logCreateAndProcess (destroyDeliveryCascade db d) requestId dd now
        else
          Except.error "Delivery already exists for this request"
      | none => logCreateAndProcess db requestId dd now
    else
      Except.error "Only planned or processing requests can have delivery logged"

/-- The field assignment of the post-commit `Driver.update` call:
`totalDeliveries` and `lastDelivery` from the queued update, plus the
freshly recomputed overall rating. -/
def statsWrite (u : DriverUpdate) (rating : ℚ) (d : Driver) : Driver :=
  { d with totalDeliveries := u.totalDeliveries
           lastDelivery := some u.lastDelivery
           overallRating := rating }

/-- Post-commit statistics refresh: for each queued update, recompute the
overall rating and write the aggregates; a store failure for a driver
(driver id listed in `failures`) is caught, logged and skipped, and the
loop continues with the remaining drivers. -/
def refreshDriverStats (failures : List Nat) : DB → List DriverUpdate → DB
  | db, [] => db
  | db, u :: rest =>
    let db' :=
      if u.id ∈ failures then db
      else updateDriverRow db u.id (statsWrite u (calculateDriverOverallRating db u.id))
    refreshDriverStats failures db' rest

/-- Prefix-of test on character lists, used for the substring match of
the lock-error classifier. -/
def leadsWith : List Char → List Char → Bool
  | [], _ => true
  | _ :: _, [] => false
  | a :: as, b :: bs => a == b && leadsWith as bs

/-- Substring test on character lists. -/
def containsSub (pat : List Char) : List Char → Bool
  | [] => leadsWith pat []
  | c :: cs => leadsWith pat (c :: cs) || containsSub pat cs

/-- JavaScript `string.includes(pat)`. -/
def strIncludes (s pat : String) : Bool := containsSub pat.data s.data

/-- The retry classifier of `logDeliveryWithDrivers`:
`error.message.includes('Lock wait timeout') || error.message.includes('Deadlock')`. -/
def isLockError (msg : String) : Bool :=
  strIncludes msg "Lock wait timeout" || strIncludes msg "Deadlock"

/-- `calculateRetryDelay(retryCount)` from the delivery helper:
`Math.pow(2, retryCount) * 1000`. -/
def calculateRetryDelay (retryCount : Nat) : Nat := 2 ^ retryCount * 1000

/-- `maxRetries` constant of the retry loop. -/
def maxRetries : Nat := 3

/-- Store-level environment of one transaction attempt: either the store
raises an error (for example a lock wait timeout) or the attempt runs the
transaction body normally. -/
inductive TxEnv where
  | fault (msg : String)
  | normal

/-- Run one attempt under its environment. -/
def runAttempt (db : DB) (requestId : Nat) (dd : DeliveryData) (now : Nat) :
    TxEnv → Except String (DB × AttemptResult)
  | TxEnv.fault msg => Except.error msg
  | TxEnv.normal => logDeliveryAttempt db requestId dd now

/-- Client-visible result of `logDeliveryWithDrivers`
(`formatDeliverySuccessResponse`). -/
structure LogResponse where
  delivery : Delivery
  drivers : List Driver
deriving DecidableEq, Repr

/-- Observable outcome of a whole `logDeliveryWithDrivers` call: final
store state, returned value or surfaced error, the backoff delays slept
(in order), and how many transaction attempts ran. -/
structure LogOutcome where
  db : DB
  result : Except String LogResponse
  delays : List Nat
  attempts : Nat

/-- The `while (retryCount < maxRetries)` loop. `fuel` is
`maxRetries - retryCount`, so the loop-exhausted error of the source's
final line corresponds to `fuel = 0`. On success the main transaction
commits and the post-commit statistics refresh runs (with per-driver
failure environment `failures`); a lock-classified error increments the
retry counter and, while budget remains, sleeps `calculateRetryDelay` and
retries against the rolled-back state; any other error surfaces wrapped. -/
def logLoop (requestId : Nat) (dd : DeliveryData) (now : Nat) (env : Nat → TxEnv)
    (failures : List Nat) : Nat → Nat → DB → LogOutcome
  | 0, _, db =>
    { db := db
      result := Except.error "Failed to log delivery: Maximum retry attempts exceeded due to database locks"
      delays := [], attempts := 0 }
  | fuel + 1, retryCount, db =>
    match runAttempt db requestId dd now (env retryCount) with
    | Except.ok (db1, res) =>
      let db2 := refreshDriverStats failures db1 res.driverUpdates
      { db := db2, result := Except.ok { delivery := res.delivery, drivers := res.drivers }
        delays := [], attempts := 1 }
    | Except.error msg =>
      if isLockError msg then
        if retryCount + 1 < maxRetries then
          let out := logLoop requestId dd now env failures fuel (retryCount + 1) db
          { db := out.db, result := out.result
            delays := calculateRetryDelay (retryCount + 1) :: out.delays
            attempts := out.attempts + 1 }
        else
          { db := db, result := Except.error ("Failed to log delivery: " ++ msg)
            delays := [], attempts := 1 }
      else
        { db := db, result := Except.error ("Failed to log delivery: " ++ msg)
          delays := [], attempts := 1 }

/-- `logDeliveryWithDrivers(requestId, deliveryData)`: the retry loop
started with `retryCount = 0`, followed on success by the post-commit
statistics refresh. -/
def logDeliveryWithDrivers (db : DB) (requestId : Nat) (dd : DeliveryData) (now : Nat)
    (env : Nat → TxEnv) (failures : List Nat) : LogOutcome :=
  logLoop requestId dd now env failures maxRetries 0 db

/- ===== updateDelivery (delivery.service.js + DeliveryHelper) ===== -/

/-- Rating fields of a post-completion edit entry (`driverData.ratings`). -/
structure RatingEditData where
  punctuality : Option Nat
  professionalism : Option Nat
  deliveryQuality : Option Nat
  communication : Option Nat
  safety : Option Nat
  policyCompliance : Option Nat
  fuelEfficiency : Option Nat
  comments : Option String
  overallRating : Option Nat
deriving DecidableEq, Repr

/-- One entry of the `drivers` array of an `updateDelivery` body: the
presence of `ratingId` selects update, otherwise `driver_id` selects
create (JS truthiness, so 0 counts as absent). -/
structure DriverEdit where
  ratingId : Option Nat
  driver_id : Option Nat
  ratings : RatingEditData
deriving DecidableEq, Repr

/-- Delivery fields of an `updateDelivery` body. -/
structure DeliveryFields where
  actualPickupDateTime : Nat
  actualTruckCount : Nat
  invoiceAmount : ℚ
  deliveryNotes : Option String
deriving DecidableEq, Repr

/-- Body of an `updateDelivery` call. -/
structure UpdateDeliveryData where
  delivery : Option DeliveryFields
  drivers : Option (List DriverEdit)
deriving DecidableEq, Repr

/-- `extractSubmittedRatingIds(drivers)`:
`drivers.map(d => d.ratingId).filter(Boolean)`. -/
def extractSubmittedRatingIds (drivers : List DriverEdit) : List Nat :=
  (drivers.map (fun d => d.ratingId)).filterMap truthyNat

/-- `findRatingsToDelete(existingRatings, submittedRatingIds)`: existing
ratings whose id is not among the submitted ones. -/
def findRatingsToDelete (existingRatings : List DriverRating)
    (submittedRatingIds : List Nat) : List DriverRating :=
  existingRatings.filter (fun r => decide (¬ submittedRatingIds.contains r.id))

/-- Field assignment of the `driverRating.update({...})` call of
`updateDelivery` (id, deliveryId and driverId are not written). -/
def applyRatingEdit (re : RatingEditData) (r : DriverRating) : DriverRating :=
  { r with punctuality := re.punctuality, professionalism := re.professionalism
           deliveryQuality := re.deliveryQuality, communication := re.communication
           safety := re.safety, policyCompliance := re.policyCompliance
           fuelEfficiency := re.fuelEfficiency, comments := re.comments
           overallRating := re.overallRating }

/-- The `DriverRating` row built by the `DriverRating.create` call of the
`updateDelivery` create branch. -/
def newRatingFromEdit (db : DB) (deliveryId driverId : Nat) (re : RatingEditData) : DriverRating :=
  { id := db.nextRatingId, deliveryId := deliveryId, driverId := driverId
    punctuality := re.punctuality, professionalism := re.professionalism
    deliveryQuality := re.deliveryQuality, communication := re.communication
    safety := re.safety, policyCompliance := re.policyCompliance
    fuelEfficiency := re.fuelEfficiency, overallRating := re.overallRating
    comments := re.comments }

/-- `DriverRating.create` of the `updateDelivery` create branch. -/
def createRatingFromEdit (db : DB) (deliveryId driverId : Nat) (re : RatingEditData) : DB :=
  { db with ratings := db.ratings ++ [newRatingFromEdit db deliveryId driverId re]
            nextRatingId := db.nextRatingId + 1 }

/-- The `for (const driverData of updateData.drivers)` loop of
`updateDelivery`: a truthy `ratingId` updates the rating found by
`DriverRating.findByPk` (if any — note there is no check that it belongs
to the delivery being edited), otherwise a truthy `driver_id` creates a
new rating for this delivery, otherwise the entry is skipped. -/
def processRatingEdits (deliveryId : Nat) : DB → List DriverEdit → DB
  | db, [] => db
  | db, de :: rest =>
    let db' :=
      match truthyNat de.ratingId with
      | some rid =>
        match findRating db rid with
        | some _ => updateRatingRow db rid (applyRatingEdit de.ratings)
        | none => db
      | none =>
        match truthyNat de.driver_id with
        | some did => createRatingFromEdit db deliveryId did de.ratings
        | none => db
    processRatingEdits deliveryId db' rest

/-- Field assignment of the `delivery.update({...})` call of
`updateDelivery`. -/
def applyDeliveryFields (f : DeliveryFields) (d : Delivery) : Delivery :=
  { d with actualPickupDateTime := f.actualPickupDateTime
           actualTruckCount := f.actualTruckCount
           invoiceAmount := f.invoiceAmount
           deliveryNotes := f.deliveryNotes }

/-- The deletion phase of `updateDelivery`: when `findRatingsToDelete` is
non-empty, `DriverRating.destroy({ where: { id: ratingsToDelete } })`
removes every rating row whose id is among the ids to delete. -/
def deleteRatingsStep (db1 : DB) (deliveryId : Nat) (submitted : List Nat) : DB :=
  let toDelete := findRatingsToDelete (ratingsForDelivery db1 deliveryId) submitted
  if 0 < toDelete.length then
    { db1 with ratings := db1.ratings.filter (fun r =>
        decide (¬ (toDelete.map (fun x => x.id)).contains r.id)) }
  else db1

/-- `updateDelivery(requestId, updateData)`: find the delivery of the
request, optionally overwrite its fields, then apply the client-declared
rating diff — delete the existing ratings of this delivery whose ids were
not resubmitted, then run the update/create loop. -/
def updateDelivery (db : DB) (requestId : Nat) (upd : UpdateDeliveryData) :
    DB × Except String Unit :=
  match findDeliveryByRequest db requestId with
  | none => (db, Except.error "Failed to update delivery: Delivery not found for this request")
  | some del =>
    let db1 :=
      match upd.delivery with
      | some f => updateDeliveryRow db del.id (applyDeliveryFields f)
      | none => db
    match upd.drivers with
    | none => (db1, Except.ok ())
    | some drivers =>
      let db2 := deleteRatingsStep db1 del.id (extractSubmittedRatingIds drivers)
      (processRatingEdits del.id db2 drivers, Except.ok ())

/- ===== Request CRUD (request.service.js + validation schemas) ===== -/

/-- Body of `createRequest` after validation: `stripUnknown: true` drops
any client-supplied `status`, so the model default `planned` always
applies. -/
structure RequestCreateData where
  pickUpDateTime : Nat
  estimatedCost : Option ℚ
deriving DecidableEq, Repr

/-- The `Request` row built by `TransportationRequest.create`; the status
column takes its model default `planned`. -/
def newRequestRow (db : DB) (rd : RequestCreateData) : Request :=
  { id := db.nextRequestId, status := Status.planned
    pickUpDateTime := rd.pickUpDateTime, estimatedCost := rd.estimatedCost }

/-- `createRequest(requestData)`: insert a new request; the status column
takes its model default `planned`. -/
def createRequest (db : DB) (rd : RequestCreateData) : DB × Except String Request :=
  ({ db with requests := db.requests ++ [newRequestRow db rd]
             nextRequestId := db.nextRequestId + 1 },
   Except.ok (newRequestRow db rd))

/-- Body of `updateRequest` after the boundary schema: every field
optional; the schema admits `status` only with value `planned` or
`cancelled`. -/
structure RequestUpdateData where
  status : Option Status
  pickUpDateTime : Option Nat
  estimatedCost : Option ℚ
deriving DecidableEq, Repr

/-- The `status: Joi.string().valid('planned', 'cancelled')` constraint
of `updateRequestSchema`. -/
def updateStatusValid (u : RequestUpdateData) : Bool :=
  match u.status with
  | none => true
  | some Status.planned => true
  | some Status.cancelled => true
  | some _ => false

/-- `updateRequest(requestId, updateData)` behind its controller: the
validation rejects a status outside planned/cancelled (HTTP 400, no
service call); the service then rejects missing requests and requests
already `completed`, and otherwise applies the provided fields. -/
def updateRequest (db : DB) (requestId : Nat) (u : RequestUpdateData) :
    DB × Except String Unit :=
  if updateStatusValid u then
    match findRequest db requestId with
    | none => (db, Except.error "Failed to update request: Request not found")
    | some req =>
      if req.status = Status.completed then
        (db, Except.error "Failed to update request: Cannot update completed requests")
      else
        (updateRequestRow db requestId (fun r =>
          { r with status := u.status.getD r.status
                   pickUpDateTime := u.pickUpDateTime.getD r.pickUpDateTime
                   estimatedCost :=
                     match u.estimatedCost with
                     | some c => some c
                     | none => r.estimatedCost }),
         Except.ok ())
  else
    (db, Except.error "Validation failed: status can only be updated to planned or cancelled")

/-- `deleteRequest(requestId)`: missing requests and `completed` requests
are rejected; otherwise the row is destroyed. -/
def deleteRequest (db : DB) (requestId : Nat) : DB × Except String Unit :=
  match findRequest db requestId with
  | none => (db, Except.error "Failed to delete request: Request not found")
  | some req =>
    if req.status = Status.completed then
      (db, Except.error "Failed to delete request: Cannot delete completed requests")
    else
      ({ db with requests := db.requests.filter (fun r => decide (r.id ≠ requestId)) },
       Except.ok ())

/-- The public operations the status-machine claim quantifies over. -/
inductive PublicOp where
  | logDelivery (requestId : Nat) (dd : DeliveryData) (now : Nat)
      (env : Nat → TxEnv) (failures : List Nat)
  | confirmCompletion (requestId : Nat)
  | createReq (rd : RequestCreateData)
  | updateReq (requestId : Nat) (u : RequestUpdateData)
  | deleteReq (requestId : Nat)

/-- State effect of one public operation. -/
def applyOp (db : DB) : PublicOp → DB
  | PublicOp.logDelivery rid dd now env failures =>
    (logDeliveryWithDrivers db rid dd now env failures).db
  | PublicOp.confirmCompletion rid => (confirmDeliveryCompletion db rid).1
  | PublicOp.createReq rd => (createRequest db rd).1
  | PublicOp.updateReq rid u => (updateRequest db rid u).1
  | PublicOp.deleteReq rid => (deleteRequest db rid).1

/-- Status of a request as observed through `findByPk`. -/
def statusOf (db : DB) (rid : Nat) : Option Status :=
  (findRequest db rid).map (fun r => r.status)

/- ===== Dashboard KPI queries (kpiQueries.js / dashboard.service.js) ===== -/

/-- SQL `DATE()` of a millisecond timestamp (calendar-day granularity). -/
def dateOnly (t : Nat) : Nat := t / 86400000

/-- Deliveries whose pickup date falls in the requested window (the
`WHERE DATE(d.actual_pickup_datetime) BETWEEN :startDate AND :endDate`
clause shared by all four KPI queries). -/
def deliveriesInRange (db : DB) (s e : Nat) : List Delivery :=
  db.deliveries.filter (fun d =>
    decide (s ≤ dateOnly d.actualPickupDateTime) && decide (dateOnly d.actualPickupDateTime ≤ e))

/-- The `deliveries JOIN transportation_requests` rows of the window
(soft-deleted requests are absent from the store). -/
def kpiJoin (db : DB) (s e : Nat) : List (Delivery × Request) :=
  (deliveriesInRange db s e).filterMap (fun d =>
    (findRequest db d.requestId).map (fun r => (d, r)))

/-- Result row of `calculateOnTimeDeliveryRate`. -/
structure OnTimeResult where
  rate : ℚ
  total : Nat
  onTime : Nat
deriving DecidableEq, Repr

/-- `calculateOnTimeDeliveryRate(startDate, endDate)`: the SQL division
`on_time * 100.0 / COUNT(*)` yields NULL on an empty window, and the JS
`result[0]?.on_time_rate || 0` maps that to 0. -/
def calculateOnTimeDeliveryRate (db : DB) (s e : Nat) : OnTimeResult :=
  let rows := kpiJoin db s e
  let total := rows.length
  let onTime := (rows.filter (fun p => decide (p.1.actualPickupDateTime ≤ p.2.pickUpDateTime))).length
  let rateSql : Option ℚ := if total = 0 then none else some ((onTime * 100 : ℚ) / total)
  { rate := rateSql.getD 0, total := total, onTime := onTime }

/-- Result row of `calculateCostVariance`. -/
structure CostVarianceResult where
  variance : ℚ
  totalWithCosts : Nat
deriving DecidableEq, Repr

/-- Joined rows restricted by `tr.estimated_cost > 0 AND d.invoice_amount > 0`. -/
def costRows (db : DB) (s e : Nat) : List (Delivery × Request) :=
  (kpiJoin db s e).filter (fun p =>
    (match p.2.estimatedCost with
     | some c => decide (0 < c)
     | none => false) && decide (0 < p.1.invoiceAmount))

/-- `calculateCostVariance(startDate, endDate)`: SQL `AVG` over an empty
set is NULL, mapped to 0 by `|| 0`. -/
def calculateCostVariance (db : DB) (s e : Nat) : CostVarianceResult :=
  let rows := costRows db s e
  let avgSql : Option ℚ :=
    if rows.length = 0 then none
    else some
      (((rows.map (fun p =>
          (p.1.invoiceAmount - p.2.estimatedCost.getD 0) / p.2.estimatedCost.getD 0 * 100)).sum)
        / rows.length)
  { variance := avgSql.getD 0, totalWithCosts := rows.length }

/-- The `driver_ratings JOIN deliveries` rows of the window. -/
def ratingsJoin (db : DB) (s e : Nat) : List (DriverRating × Delivery) :=
  db.ratings.flatMap (fun r =>
    ((deliveriesInRange db s e).filter (fun d => decide (d.id = r.deliveryId))).map
      (fun d => (r, d)))

/-- Result row of `calculateFleetUtilization`. -/
structure FleetUtilizationResult where
  rate : ℚ
  activeDrivers : Nat
  totalDrivers : Nat
deriving DecidableEq, Repr

/-- The divisor of the utilization rate after the
`totalDriversResult[0]?.total_drivers || 1` guard. -/
def fleetDenominator (db : DB) : Nat :=
  if db.drivers.length = 0 then 1 else db.drivers.length

/-- `calculateFleetUtilization(startDate, endDate)`:
`COUNT(DISTINCT dr.driver_id)` over the window, divided by the guarded
total driver count. -/
def calculateFleetUtilization (db : DB) (s e : Nat) : FleetUtilizationResult :=
  let activeDrivers := ((ratingsJoin db s e).map (fun p => p.1.driverId)).dedup.length
  { rate := ((activeDrivers : ℚ) / (fleetDenominator db : ℚ)) * 100
    activeDrivers := activeDrivers
    totalDrivers := fleetDenominator db }

/-- Result row of `calculateDriverPerformance`. -/
structure DriverPerformanceResult where
  average : ℚ
  totalRatings : Nat
deriving DecidableEq, Repr

/-- `calculateDriverPerformance(startDate, endDate)`: average overall
rating over the window's ratings with non-NULL overall score; empty
average is NULL, mapped to 0 by `|| 0`. -/
def calculateDriverPerformance (db : DB) (s e : Nat) : DriverPerformanceResult :=
  let rows := (ratingsJoin db s e).filter (fun p => p.1.overallRating.isSome)
  let avgSql : Option ℚ :=
    if rows.length = 0 then none
    else some
      (((rows.filterMap (fun p => p.1.overallRating)).map (fun n => (n : ℚ))).sum / rows.length)
  { average := avgSql.getD 0, totalRatings := rows.length }

/-- `calculatePercentageChange(current, previous)`: a zero (or falsy)
baseline yields 0 instead of dividing by zero. -/
def calculatePercentageChange (current previous : ℚ) : ℚ :=
  if previous = 0 then 0
  else round1 ((current - previous) / |previous| * 100)

/- ===== Sample rows used by the concrete witnesses ===== -/

/-- Sample rating row. -/
def sampleRatingA : DriverRating :=
  { id := 1, deliveryId := 1, driverId := 1, punctuality := some 4, professionalism := some 5
    deliveryQuality := some 3, communication := none, safety := some 2, policyCompliance := none
    fuelEfficiency := none, overallRating := some 5, comments := none }

/-- Sample rating row. -/
def sampleRatingB : DriverRating :=
  { id := 2, deliveryId := 1, driverId := 2, punctuality := some 2, professionalism := some 3
    deliveryQuality := none, communication := some 4, safety := none, policyCompliance := some 1
    fuelEfficiency := some 2, overallRating := some 3, comments := some "ok" }

/-- Sample planned request. -/
def reqPlanned : Request :=
  { id := 1, status := Status.planned, pickUpDateTime := 100, estimatedCost := some 50 }

/-- Sample processing request. -/
def reqProcessing : Request :=
  { id := 2, status := Status.processing, pickUpDateTime := 200, estimatedCost := none }

/-- Sample driver. -/
def driverOne : Driver :=
  { id := 1, name := "Dana", dtype := DriverType.transporter, transportCompany := some "Acme"
    phone := none, licenseNumber := none, employeeId := none, department := none
    hireDate := none, overallRating := 0, totalDeliveries := 0, lastDelivery := none }

/-- Sample driver without any rating. -/
def driverTwo : Driver :=
  { driverOne with id := 2, name := "Robin" }

/-- Sample store with one planned and one processing request, two drivers
and one rating referencing driver 1. -/
def dbTwoRequests : DB :=
  { requests := [reqPlanned, reqProcessing], deliveries := [], drivers := [driverOne, driverTwo]
    ratings := [sampleRatingA], nextRequestId := 3, nextDeliveryId := 1
    nextDriverId := 3, nextRatingId := 2 }

/-- Sample `logDelivery` body without driver assignments. -/
def ddNoDrivers : DeliveryData :=
  { actualPickupDateTime := 400, actualTruckCount := 2, invoiceAmount := 120
    deliveryNotes := none, drivers := [] }

/-- The transition list stated by the specification ("the only
transitions are planned to processing, processing to processing,
processing to completed, and planned/processing to cancelled, with
completed terminal"); staying put is always allowed. -/
def claimedTransition (s s' : Status) : Prop :=
  s' = s ∨
  (s = Status.planned ∧ s' = Status.processing) ∨
  (s = Status.processing ∧ s' = Status.completed) ∨
  ((s = Status.planned ∨ s = Status.processing) ∧ s' = Status.cancelled)

/-- The transition guarantee the code actually enforces: no transition
out of `completed`, `completed` only entered from `processing`, and
`processing` only entered from `planned` or `processing`. (Unlike the
claimed list, `updateRequest` can also move any non-completed request
back to `planned` or to `cancelled`.) -/
def codeTransition (s s' : Status) : Prop :=
  (s = Status.completed → s' = Status.completed) ∧
  (s' = Status.completed → s = Status.processing ∨ s = Status.completed) ∧
  (s' = Status.processing → s = Status.planned ∨ s = Status.processing)

/-- Sample `updateRequest` body that sets the status back to planned
(accepted by `updateRequestSchema`). -/
def updToPlanned : RequestUpdateData :=
  { status := some Status.planned, pickUpDateTime := none, estimatedCost := none }

/-- Sample driver assignment referencing driver 1 by `driver_id`, flat
rating format. -/
def driverInputRef1 : DriverInput :=
  { driver_id := some 1, id := none, name := "", dtype := DriverType.transporter
    transportCompany := none, phone := none, licenseNumber := none, employeeId := none
    department := none, hireDate := none, rating := none
    punctuality := some 4, professionalism := some 5, deliveryQuality := none
    communication := none, safety := none, policyCompliance := none, fuelEfficiency := none
    overall := some 5, comments := none }

/-- Sample second `logDelivery` body (the retry of the scenario), with a
different invoice amount and one driver assignment. -/
def dd2 : DeliveryData :=
  { actualPickupDateTime := 450, actualTruckCount := 3, invoiceAmount := 250
    deliveryNotes := some "retry", drivers := [driverInputRef1] }

/-- Old delivery row of the re-log scenario. -/
def dOld : Delivery :=
  { id := 1, requestId := 1, actualPickupDateTime := 400, actualTruckCount := 2
    invoiceAmount := 100, deliveryNotes := none, loggedBy := "System" }

/-- Old rating row of the re-log scenario, attached to the old delivery. -/
def rOld : DriverRating :=
  { id := 1, deliveryId := 1, driverId := 1, punctuality := some 3, professionalism := some 3
    deliveryQuality := none, communication := none, safety := none, policyCompliance := none
    fuelEfficiency := none, overallRating := some 3, comments := none }

/-- Store of the re-log scenario: request 1 is `processing` with one
logged delivery, one rating, and driver 1 with one prior delivery. -/
def dbRelog : DB :=
  { requests := [{ id := 1, status := Status.processing, pickUpDateTime := 100
                   estimatedCost := some 50 }]
    deliveries := [dOld]
    drivers := [{ driverOne with totalDeliveries := 1, lastDelivery := some 400 }]
    ratings := [rOld]
    nextRequestId := 2, nextDeliveryId := 2, nextDriverId := 2, nextRatingId := 2 }

/-- New delivery row created by the re-log call of the sample scenario. -/
def dNew : Delivery :=
  { id := 2, requestId := 1, actualPickupDateTime := 450, actualTruckCount := 3
    invoiceAmount := 250, deliveryNotes := some "retry", loggedBy := "System" }

/-- Rating row created by the re-log call of the sample scenario. -/
def rNew : DriverRating :=
  { id := 2, deliveryId := 2, driverId := 1, punctuality := some 4, professionalism := some 5
    deliveryQuality := none, communication := none, safety := none, policyCompliance := none
    fuelEfficiency := none, overallRating := some 5, comments := none }

/-- Driver row as read during the re-log call. -/
def drOld : Driver :=
  { driverOne with totalDeliveries := 1, lastDelivery := some 400 }

/-- Committed store of the re-log call, before the statistics refresh. -/
def dbRelogCommitted : DB :=
  { requests := [{ id := 1, status := Status.processing, pickUpDateTime := 100
                   estimatedCost := some 50 }]
    deliveries := [dNew], drivers := [drOld], ratings := [rNew]
    nextRequestId := 2, nextDeliveryId := 3, nextDriverId := 2, nextRatingId := 3 }

/-- In-transaction result of the re-log call. -/
def relogResult : AttemptResult :=
  { delivery := dNew, drivers := [drOld]
    driverUpdates := [{ id := 1, totalDeliveries := 2, lastDelivery := 900 }] }

/-- Rating edit payload of the updateDelivery examples. -/
def reFive : RatingEditData :=
  { punctuality := some 5, professionalism := some 5, deliveryQuality := none
    communication := none, safety := none, policyCompliance := none
    fuelEfficiency := none, comments := some "edited", overallRating := some 5 }

/-- Delivery of request 10 (the one being edited in the examples). -/
def dEditA : Delivery :=
  { id := 1, requestId := 10, actualPickupDateTime := 100, actualTruckCount := 1
    invoiceAmount := 10, deliveryNotes := none, loggedBy := "System" }

/-- Delivery of request 20 (not being edited). -/
def dEditB : Delivery :=
  { id := 2, requestId := 20, actualPickupDateTime := 200, actualTruckCount := 1
    invoiceAmount := 20, deliveryNotes := none, loggedBy := "System" }

/-- Rating row attached to delivery 1. -/
def rEditA : DriverRating :=
  { id := 1, deliveryId := 1, driverId := 1, punctuality := some 1, professionalism := some 1
    deliveryQuality := none, communication := none, safety := none, policyCompliance := none
    fuelEfficiency := none, overallRating := some 1, comments := none }

/-- Rating row attached to delivery 2. -/
def rEditB : DriverRating :=
  { id := 2, deliveryId := 2, driverId := 2, punctuality := some 1, professionalism := some 1
    deliveryQuality := none, communication := none, safety := none, policyCompliance := none
    fuelEfficiency := none, overallRating := some 1, comments := none }

/-- Store with two deliveries and one rating each. -/
def dbEdit : DB :=
  { requests := [], deliveries := [dEditA, dEditB], drivers := [driverOne, driverTwo]
    ratings := [rEditA, rEditB], nextRequestId := 1, nextDeliveryId := 3
    nextDriverId := 3, nextRatingId := 3 }

/-- updateDelivery body whose single entry carries ratingId 2 — the
identifier of a rating belonging to the other delivery. -/
def updCross : UpdateDeliveryData :=
  { delivery := none
    drivers := some [{ ratingId := some 2, driver_id := none, ratings := reFive }] }

/-- updateDelivery body mixing an update entry (ratingId 2) with a
creation entry (driver_id 2 and no ratingId). -/
def updMixed : UpdateDeliveryData :=
  { delivery := none
    drivers := some [{ ratingId := some 2, driver_id := none, ratings := reFive },
                     { ratingId := none, driver_id := some 2, ratings := reFive }] }

/- ===== Generic lemmas about the store primitives ===== -/

theorem find?_filter_ne {α : Type} (idOf : α → Nat) (i : Nat) (l : List α) :
    (l.filter (fun a => decide (idOf a ≠ i))).find? (fun a => decide (idOf a = i)) = none := by
  refine List.find?_eq_none.mpr ?_
  intro a ha
  have h2 := (List.mem_filter.mp ha).2
  simp only [decide_eq_true_eq] at h2 ⊢
  exact h2

theorem find?_updateWhere {α : Type} (idOf : α → Nat) (i : Nat) (f : α → α)
    (hf : ∀ a, idOf (f a) = idOf a) (l : List α) (j : Nat) :
    (updateWhere idOf i f l).find? (fun a => decide (idOf a = j)) =
      (l.find? (fun a => decide (idOf a = j))).map (fun a => if idOf a = i then f a else a) := by
  induction l with
  | nil => rfl
  | cons a t ih =>
    simp only [updateWhere, List.map_cons] at *
    have hid : idOf (if idOf a = i then f a else a) = idOf a := by
      by_cases hi : idOf a = i
      · rw [if_pos hi, hf a]
      · rw [if_neg hi]
    by_cases h : idOf a = j
    · have hpa : decide (idOf a = j) = true := decide_eq_true h
      have hga : decide (idOf (if idOf a = i then f a else a) = j) = true := by
        rw [hid]; exact hpa
      simp [List.find?_cons, hpa, hga]
    · have hpa : decide (idOf a = j) = false := decide_eq_false h
      have hga : decide (idOf (if idOf a = i then f a else a) = j) = false := by
        rw [hid]; exact hpa
      simp only [List.find?_cons, hpa, hga, cond_false]
      exact ih

theorem findRequest_updateRequestRow (db : DB) (i : Nat) (f : Request → Request)
    (hf : ∀ r, (f r).id = r.id) (j : Nat) :
    findRequest (updateRequestRow db i f) j =
      (findRequest db j).map (fun r => if r.id = i then f r else r) := by
  simpa only [findRequest, updateRequestRow] using
    find?_updateWhere (fun r : Request => r.id) i f hf db.requests j

theorem findDriver_updateDriverRow (db : DB) (i : Nat) (f : Driver → Driver)
    (hf : ∀ d, (f d).id = d.id) (j : Nat) :
    findDriver (updateDriverRow db i f) j =
      (findDriver db j).map (fun d => if d.id = i then f d else d) := by
  simpa only [findDriver, updateDriverRow] using
    find?_updateWhere (fun d : Driver => d.id) i f hf db.drivers j

theorem findRating_updateRatingRow (db : DB) (i : Nat) (f : DriverRating → DriverRating)
    (hf : ∀ r, (f r).id = r.id) (j : Nat) :
    findRating (updateRatingRow db i f) j =
      (findRating db j).map (fun r => if r.id = i then f r else r) := by
  simpa only [findRating, updateRatingRow] using
    find?_updateWhere (fun r : DriverRating => r.id) i f hf db.ratings j

/- ===== C6: rating aggregation purity ===== -/

theorem dimAverage_perm (f : DriverRating → Option Nat) {l l' : List DriverRating}
    (h : l.Perm l') : dimAverage f l = dimAverage f l' := by
  unfold dimAverage
  rw [h.length_eq, (h.map (fun r => (((f r).getD 0 : Nat) : ℚ))).sum_eq]

/-- C6: `calculateSummary([])` is the all-zero summary with
`totalRatings = 0` (not an error); the summary is invariant under every
permutation of the rating list; and on a nonempty list each per-dimension
value is the arithmetic mean rounded to one decimal and `totalRatings`
the list length. -/
theorem calculateRatingSummary_pure :
    (calculateRatingSummary [] =
      { averageOverall := 0, averagePunctuality := 0, averageProfessionalism := 0
        averageDeliveryQuality := 0, averageCommunication := 0, averageSafety := 0
        totalRatings := 0 }) ∧
    (∀ l l' : List DriverRating, l.Perm l' →
      calculateRatingSummary l = calculateRatingSummary l') ∧
    (∀ l : List DriverRating, l ≠ [] →
      (calculateRatingSummary l).averagePunctuality = dimAverage (fun r => r.punctuality) l ∧
      (calculateRatingSummary l).averageOverall = dimAverage (fun r => r.overallRating) l ∧
      (calculateRatingSummary l).totalRatings = l.length) := by
  refine ⟨rfl, ?_, ?_⟩
  · intro l l' h
    by_cases h0 : l.length = 0
    · have h0' : l'.length = 0 := by rw [← h.length_eq]; exact h0
      simp [calculateRatingSummary, h0, h0']
    · have h0' : ¬ l'.length = 0 := by rw [← h.length_eq]; exact h0
      simp only [calculateRatingSummary, if_neg h0, if_neg h0']
      rw [dimAverage_perm _ h, dimAverage_perm _ h, dimAverage_perm _ h, dimAverage_perm _ h,
        dimAverage_perm _ h, dimAverage_perm _ h, h.length_eq]
  · intro l hl
    have h0 : ¬ l.length = 0 := by simpa using hl
    simp [calculateRatingSummary, h0]

/-- Witness for C6 at concrete inputs. -/
theorem calculateRatingSummary_pure_witness :
    calculateRatingSummary [sampleRatingA, sampleRatingB] =
      calculateRatingSummary [sampleRatingB, sampleRatingA] ∧
    (calculateRatingSummary [sampleRatingA, sampleRatingB]).totalRatings = 2 := by
  have h := calculateRatingSummary_pure
  exact ⟨h.2.1 _ _ (List.Perm.swap _ _ _),
    (h.2.2 [sampleRatingA, sampleRatingB] (by simp)).2.2⟩

/- ===== C9: driver deletion guard ===== -/

/-- C9: `deleteDriver` on a driver referenced by at least one
DriverRating fails with the archive-instead error and leaves the store
unchanged; on a driver with zero ratings it succeeds and removes the
driver; on a missing driver it fails with NotFound. -/
theorem deleteDriver_guard (db : DB) (i : Nat) :
    (∀ dr, findDriver db i = some dr → 0 < (ratingsOfDriver db.ratings i).length →
      deleteDriver db i =
        (db, Except.error "Failed to delete driver: Cannot delete driver with existing delivery ratings. Please archive the driver instead.")) ∧
    (∀ dr, findDriver db i = some dr → (ratingsOfDriver db.ratings i).length = 0 →
      (deleteDriver db i).2 = Except.ok { driverId := i } ∧
      findDriver (deleteDriver db i).1 i = none) ∧
    (findDriver db i = none →
      deleteDriver db i = (db, Except.error "Failed to delete driver: Driver not found")) := by
  refine ⟨?_, ?_, ?_⟩
  · intro dr hdr hpos
    simp [deleteDriver, hdr, hpos]
  · intro dr hdr hzero
    constructor
    · simp [deleteDriver, hdr, hzero]
    · simp only [deleteDriver, hdr, hzero]
      simpa only [findDriver] using find?_filter_ne (fun d : Driver => d.id) i db.drivers
  · intro h
    simp [deleteDriver, h]

/-- Witness for C9 at concrete inputs: driver 1 of the sample store has a
rating and cannot be deleted, driver 2 has none and is deleted, driver 99
does not exist. -/
theorem deleteDriver_guard_witness :
    deleteDriver dbTwoRequests 1 =
      (dbTwoRequests, Except.error "Failed to delete driver: Cannot delete driver with existing delivery ratings. Please archive the driver instead.") ∧
    (deleteDriver dbTwoRequests 2).2 = Except.ok { driverId := 2 } ∧
    findDriver (deleteDriver dbTwoRequests 2).1 2 = none ∧
    deleteDriver dbTwoRequests 99 =
      (dbTwoRequests, Except.error "Failed to delete driver: Driver not found") := by
  have h1 := (deleteDriver_guard dbTwoRequests 1).1 driverOne (by decide) (by decide)
  have h2 := (deleteDriver_guard dbTwoRequests 2).2.1 driverTwo (by decide) (by decide)
  have h99 := (deleteDriver_guard dbTwoRequests 99).2.2 (by decide)
  exact ⟨h1, h2.1, h2.2, h99⟩

/- ===== C2: guarded confirmation ===== -/

/-- C2: `confirmCompletion` on a planned or completed request fails with
the InvalidState error and performs no mutation (the returned store is
the input store, so every request status, Delivery and DriverRating row
is unchanged); on a processing request it succeeds and sets the status to
completed; on a missing request it fails with NotFound. -/
theorem confirmDeliveryCompletion_guarded (db : DB) (rid : Nat) :
    (∀ req, findRequest db rid = some req →
      req.status = Status.planned ∨ req.status = Status.completed →
      confirmDeliveryCompletion db rid =
        (db, Except.error "Failed to confirm delivery completion: Only processing requests can be confirmed as completed")) ∧
    (∀ req, findRequest db rid = some req → req.status = Status.processing →
      (confirmDeliveryCompletion db rid).2 =
        Except.ok { requestId := rid, status := Status.completed } ∧
      statusOf (confirmDeliveryCompletion db rid).1 rid = some Status.completed ∧
      (confirmDeliveryCompletion db rid).1.deliveries = db.deliveries ∧
      (confirmDeliveryCompletion db rid).1.ratings = db.ratings) ∧
    (findRequest db rid = none →
      confirmDeliveryCompletion db rid =
        (db, Except.error "Failed to confirm delivery completion: Request not found")) := by
  refine ⟨?_, ?_, ?_⟩
  · intro req hreq hst
    rcases hst with h | h <;> simp [confirmDeliveryCompletion, hreq, h]
  · intro req hreq hst
    have hid : req.id = rid := by
      have := List.find?_some hreq
      simpa using this
    have e : confirmDeliveryCompletion db rid =
        (updateRequestRow db rid (fun r => { r with status := Status.completed }),
         Except.ok { requestId := rid, status := Status.completed }) := by
      simp [confirmDeliveryCompletion, hreq, hst]
    refine ⟨by rw [e], ?_, ?_, ?_⟩
    · rw [statusOf, e]
      rw [findRequest_updateRequestRow db rid (fun r => { r with status := Status.completed })
        (fun r => rfl) rid, hreq]
      simp [hid]
    · rw [e]; rfl
    · rw [e]; rfl
  · intro h
    simp [confirmDeliveryCompletion, h]

/-- Witness for C2 at concrete inputs: a planned request fails without
mutation, a processing request completes, a missing request is NotFound. -/
theorem confirmDeliveryCompletion_guarded_witness :
    confirmDeliveryCompletion dbTwoRequests 1 =
      (dbTwoRequests, Except.error "Failed to confirm delivery completion: Only processing requests can be confirmed as completed") ∧
    statusOf (confirmDeliveryCompletion dbTwoRequests 2).1 2 = some Status.completed ∧
    confirmDeliveryCompletion dbTwoRequests 99 =
      (dbTwoRequests, Except.error "Failed to confirm delivery completion: Request not found") := by
  have h1 := (confirmDeliveryCompletion_guarded dbTwoRequests 1).1 reqPlanned (by decide) (Or.inl rfl)
  have h2 := (confirmDeliveryCompletion_guarded dbTwoRequests 2).2.1 reqProcessing (by decide) rfl
  have h99 := (confirmDeliveryCompletion_guarded dbTwoRequests 99).2.2 (by decide)
  exact ⟨h1, h2.2.1, h99⟩

/- ===== C7: analytics zero-data safety ===== -/

/-- C7: over a date window with no matching deliveries, each dashboard
KPI metric returns its defined zero default (the empty SQL aggregates are
NULL and mapped to 0, never NaN or Infinity — in particular the fleet
utilization divisor is guarded to be positive); and the trend
percentage-change computation returns 0 on a zero baseline instead of
dividing by zero. -/
theorem dashboard_zero_data_safe :
    (∀ db s e, deliveriesInRange db s e = [] →
      calculateOnTimeDeliveryRate db s e = { rate := 0, total := 0, onTime := 0 } ∧
      calculateCostVariance db s e = { variance := 0, totalWithCosts := 0 } ∧
      (calculateFleetUtilization db s e).rate = 0 ∧
      (calculateFleetUtilization db s e).activeDrivers = 0 ∧
      calculateDriverPerformance db s e = { average := 0, totalRatings := 0 }) ∧
    (∀ current : ℚ, calculatePercentageChange current 0 = 0) ∧
    (∀ db : DB, 0 < fleetDenominator db) := by
  refine ⟨?_, ?_, ?_⟩
  · intro db s e h
    have hkpi : kpiJoin db s e = [] := by simp [kpiJoin, h]
    have hrj : ratingsJoin db s e = [] := by simp [ratingsJoin, h]
    refine ⟨?_, ?_, ?_, ?_, ?_⟩
    · simp [calculateOnTimeDeliveryRate, hkpi]
    · simp [calculateCostVariance, costRows, hkpi]
    · simp [calculateFleetUtilization, hrj]
    · simp [calculateFleetUtilization, hrj]
    · simp [calculateDriverPerformance, hrj]
  · intro current
    simp [calculatePercentageChange]
  · intro db
    by_cases h : db.drivers.length = 0 <;> simp [fleetDenominator, h] <;> omega

/-- Witness for C7: the sample store holds no deliveries at all, so the
window 0..10 matches nothing. -/
theorem dashboard_zero_data_safe_witness :
    calculateOnTimeDeliveryRate dbTwoRequests 0 10 = { rate := 0, total := 0, onTime := 0 } ∧
    calculateCostVariance dbTwoRequests 0 10 = { variance := 0, totalWithCosts := 0 } ∧
    (calculateFleetUtilization dbTwoRequests 0 10).rate = 0 ∧
    calculateDriverPerformance dbTwoRequests 0 10 = { average := 0, totalRatings := 0 } ∧
    calculatePercentageChange 37 0 = 0 := by
  have h := dashboard_zero_data_safe
  have h0 := h.1 dbTwoRequests 0 10 rfl
  exact ⟨h0.1, h0.2.1, h0.2.2.1, h0.2.2.2.2, h.2.1 37⟩

/- ===== C4: lock-contention retry with exponential backoff ===== -/

theorem containsSub_append (pat xs ys : List Char)
    (h : containsSub pat ys = true) : containsSub pat (xs ++ ys) = true := by
  induction xs with
  | nil => simpa using h
  | cons c cs ih => simp [containsSub, ih]

theorem strIncludes_append (a b pat : String) (h : strIncludes b pat = true) :
    strIncludes (a ++ b) pat = true := by
  unfold strIncludes at *
  rw [String.data_append]
  exact containsSub_append _ _ _ h

theorem isLockError_append (a b : String) (h : isLockError b = true) :
    isLockError (a ++ b) = true := by
  unfold isLockError at *
  rcases Bool.or_eq_true_iff.mp h with h' | h'
  · exact Bool.or_eq_true_iff.mpr (Or.inl (strIncludes_append a b _ h'))
  · exact Bool.or_eq_true_iff.mpr (Or.inr (strIncludes_append a b _ h'))

theorem logLoop_attempts_le (requestId : Nat) (dd : DeliveryData) (now : Nat)
    (env : Nat → TxEnv) (failures : List Nat) :
    ∀ fuel retryCount db,
      (logLoop requestId dd now env failures fuel retryCount db).attempts ≤ fuel := by
  intro fuel
  induction fuel with
  | zero => intro rc db; simp [logLoop]
  | succ n ih =>
    intro rc db
    simp only [logLoop]
    split
    · simp
    · split
      · split
        · simpa using Nat.succ_le_succ (ih _ _)
        · simp
      · simp

/-- C4: under persistent lock-wait/deadlock store errors,
`logDeliveryWithDrivers` rolls the attempt back (state unchanged), runs
exactly 3 attempts with backoff delays 2000ms then 4000ms (doubling per
attempt), and only then surfaces a terminal wrapped error that is still
classified as lock contention; a non-lock error surfaces after a single
attempt with no delays; if the lock errors clear within the budget the
call succeeds after 3 attempts; and no environment can exceed
`maxRetries` attempts. -/
theorem logDelivery_retry_contention (db : DB) (rid : Nat) (dd : DeliveryData) (now : Nat)
    (failures : List Nat) (msgL msgO : String)
    (hL : isLockError msgL = true) (hO : isLockError msgO = false) :
    ((logDeliveryWithDrivers db rid dd now (fun _ => TxEnv.fault msgL) failures).db = db ∧
     (logDeliveryWithDrivers db rid dd now (fun _ => TxEnv.fault msgL) failures).attempts = 3 ∧
     (logDeliveryWithDrivers db rid dd now (fun _ => TxEnv.fault msgL) failures).delays =
       [calculateRetryDelay 1, calculateRetryDelay 2] ∧
     (logDeliveryWithDrivers db rid dd now (fun _ => TxEnv.fault msgL) failures).delays =
       [2000, 4000] ∧
     (logDeliveryWithDrivers db rid dd now (fun _ => TxEnv.fault msgL) failures).result =
       Except.error ("Failed to log delivery: " ++ msgL) ∧
     isLockError ("Failed to log delivery: " ++ msgL) = true) ∧
    ((logDeliveryWithDrivers db rid dd now (fun _ => TxEnv.fault msgO) failures).db = db ∧
     (logDeliveryWithDrivers db rid dd now (fun _ => TxEnv.fault msgO) failures).attempts = 1 ∧
     (logDeliveryWithDrivers db rid dd now (fun _ => TxEnv.fault msgO) failures).delays = [] ∧
     (logDeliveryWithDrivers db rid dd now (fun _ => TxEnv.fault msgO) failures).result =
       Except.error ("Failed to log delivery: " ++ msgO)) ∧
    (∀ db1 res, logDeliveryAttempt db rid dd now = Except.ok (db1, res) →
      (logDeliveryWithDrivers db rid dd now
          (fun k => if k < 2 then TxEnv.fault msgL else TxEnv.normal) failures).result =
        Except.ok { delivery := res.delivery, drivers := res.drivers } ∧
      (logDeliveryWithDrivers db rid dd now
          (fun k => if k < 2 then TxEnv.fault msgL else TxEnv.normal) failures).attempts = 3) ∧
    (∀ env, (logDeliveryWithDrivers db rid dd now env failures).attempts ≤ maxRetries) := by
  refine ⟨?_, ?_, ?_, ?_⟩
  · refine ⟨?_, ?_, ?_, ?_, ?_, isLockError_append _ _ hL⟩ <;>
      simp [logDeliveryWithDrivers, logLoop, runAttempt, maxRetries, hL, calculateRetryDelay]
  · refine ⟨?_, ?_, ?_, ?_⟩ <;>
      simp [logDeliveryWithDrivers, logLoop, runAttempt, maxRetries, hO]
  · intro db1 res hok
    constructor <;>
      simp [logDeliveryWithDrivers, logLoop, runAttempt, maxRetries, hL, hok]
  · intro env
    exact logLoop_attempts_le rid dd now env failures maxRetries 0 db

/-- Witness for C4 at concrete inputs: the MySQL lock-wait message is
retried to exhaustion with doubling delays; a NotFound-style message is
not retried. -/
theorem logDelivery_retry_contention_witness :
    (logDeliveryWithDrivers dbTwoRequests 1 ddNoDrivers 500
        (fun _ => TxEnv.fault "Lock wait timeout exceeded; try restarting transaction") []).attempts = 3 ∧
    (logDeliveryWithDrivers dbTwoRequests 1 ddNoDrivers 500
        (fun _ => TxEnv.fault "Lock wait timeout exceeded; try restarting transaction") []).delays =
      [2000, 4000] ∧
    (logDeliveryWithDrivers dbTwoRequests 1 ddNoDrivers 500
        (fun _ => TxEnv.fault "Request not found") []).attempts = 1 := by
  have h := logDelivery_retry_contention dbTwoRequests 1 ddNoDrivers 500 []
    "Lock wait timeout exceeded; try restarting transaction" "Request not found"
    (by rfl) (by rfl)
  exact ⟨h.1.2.1, h.1.2.2.2.1, h.2.1.2.1⟩

/- ===== Structural lemmas about the logDelivery transaction body ===== -/

theorem resolveDriver_spec (db : DB) (di : DriverInput) (db1 : DB) (dr : Driver)
    (h : resolveDriver db di = Except.ok (db1, dr)) :
    db1.requests = db.requests ∧ db1.deliveries = db.deliveries ∧
    db1.nextDeliveryId = db.nextDeliveryId ∧ db1.ratings = db.ratings ∧
    db1.nextRatingId = db.nextRatingId ∧
    ((db1 = db ∧ findDriver db dr.id = some dr) ∨
      (db1.drivers = db.drivers ++ [dr] ∧ dr.id = db.nextDriverId ∧
        db1.nextDriverId = db.nextDriverId + 1 ∧ dr.totalDeliveries = 0)) := by
  unfold resolveDriver at h
  cases h1 : truthyNat di.driver_id with
  | some i =>
    simp only [h1] at h
    cases h2 : findDriver db i with
    | some d =>
      simp only [h2, Except.ok.injEq, Prod.mk.injEq] at h
      obtain ⟨hdb, hd⟩ := h
      subst hdb
      subst hd
      have hid : d.id = i := by simpa using List.find?_some h2
      refine ⟨rfl, rfl, rfl, rfl, rfl, Or.inl ⟨rfl, ?_⟩⟩
      rw [hid]
      exact h2
    | none => simp only [h2] at h; exact absurd h (by simp)
  | none =>
    simp only [h1] at h
    cases h3 : truthyNat di.id with
    | some i =>
      simp only [h3] at h
      cases h2 : findDriver db i with
      | some d =>
        simp only [h2, Except.ok.injEq, Prod.mk.injEq] at h
        obtain ⟨hdb, hd⟩ := h
        subst hdb
        subst hd
        have hid : d.id = i := by simpa using List.find?_some h2
        refine ⟨rfl, rfl, rfl, rfl, rfl, Or.inl ⟨rfl, ?_⟩⟩
        rw [hid]
        exact h2
      | none => simp only [h2] at h; exact absurd h (by simp)
    | none =>
      simp only [h3, Except.ok.injEq, Prod.mk.injEq] at h
      obtain ⟨hdb, hd⟩ := h
      subst hdb
      subst hd
      exact ⟨rfl, rfl, rfl, rfl, rfl, Or.inr ⟨rfl, rfl, rfl, rfl⟩⟩

theorem processDrivers_spec (now did : Nat) :
    ∀ (inputs : List DriverInput) (db db' : DB) (procs : List Driver)
      (upds : List DriverUpdate),
      processDrivers now did inputs db = Except.ok (db', procs, upds) →
      db'.requests = db.requests ∧
      db'.deliveries = db.deliveries ∧
      db'.nextDeliveryId = db.nextDeliveryId ∧
      db.nextDriverId ≤ db'.nextDriverId ∧
      (∃ created, db'.ratings = db.ratings ++ created ∧
        created.length = inputs.length ∧
        (∀ c ∈ created, c.deliveryId = did ∧ db.nextRatingId ≤ c.id) ∧
        created.map (fun c => c.driverId) = procs.map (fun d => d.id)) ∧
      (∃ nds, db'.drivers = db.drivers ++ nds ∧ ∀ d ∈ nds, db.nextDriverId ≤ d.id) ∧
      procs.length = inputs.length ∧
      upds = procs.map (fun dr => formatDriverUpdateData dr now) := by
  intro inputs
  induction inputs with
  | nil =>
    intro db db' procs upds h
    simp only [processDrivers, Except.ok.injEq, Prod.mk.injEq] at h
    obtain ⟨hdb, hp, hu⟩ := h
    subst hdb hp hu
    exact ⟨rfl, rfl, rfl, le_refl _, ⟨[], by simp⟩, ⟨[], by simp⟩, rfl, rfl⟩
  | cons di rest ih =>
    intro db db' procs upds h
    unfold processDrivers at h
    cases heq1 : resolveDriver db di with
    | error e => simp only [heq1] at h; exact absurd h (by simp)
    | ok p =>
      obtain ⟨db1, dr⟩ := p
      simp only [heq1] at h
      cases heq2 : processDrivers now did rest (createRating db1 did dr.id (extractRatingData di)) with
      | error e => simp only [heq2] at h; exact absurd h (by simp)
      | ok q =>
        obtain ⟨db3, procs', upds'⟩ := q
        simp only [heq2, Except.ok.injEq, Prod.mk.injEq] at h
        obtain ⟨hdb, hprocs, hupds⟩ := h
        subst hdb hprocs hupds
        obtain ⟨hrq, hdl, hnd, hrt, hnr, hbr⟩ := resolveDriver_spec db di db1 dr heq1
        obtain ⟨ihrq, ihdl, ihnd, ihdr, ⟨created, ihc1, ihc2, ihc3, ihc4⟩,
          ⟨nds, ihn1, ihn2⟩, ihlen, ihupds⟩ := ih _ _ _ _ heq2
        have hcrRt : (createRating db1 did dr.id (extractRatingData di)).ratings =
            db1.ratings ++ [ratingFromData db1.nextRatingId did dr.id (extractRatingData di)] := rfl
        have hcrDrv : (createRating db1 did dr.id (extractRatingData di)).drivers =
            db1.drivers := rfl
        have hcrNd : (createRating db1 did dr.id (extractRatingData di)).nextDriverId =
            db1.nextDriverId := rfl
        have hcrNr : (createRating db1 did dr.id (extractRatingData di)).nextRatingId =
            db1.nextRatingId + 1 := rfl
        have hcrRq : (createRating db1 did dr.id (extractRatingData di)).requests =
            db1.requests := rfl
        have hcrDl : (createRating db1 did dr.id (extractRatingData di)).deliveries =
            db1.deliveries := rfl
        have hcrNdl : (createRating db1 did dr.id (extractRatingData di)).nextDeliveryId =
            db1.nextDeliveryId := rfl
        refine ⟨?_, ?_, ?_, ?_, ?_, ?_, ?_, ?_⟩
        · rw [ihrq, hcrRq, hrq]
        · rw [ihdl, hcrDl, hdl]
        · rw [ihnd, hcrNdl, hnd]
        · rw [hcrNd] at ihdr
          rcases hbr with ⟨hd, _⟩ | ⟨_, _, hn, _⟩
          · rw [hd] at ihdr; exact ihdr
          · rw [hn] at ihdr; omega
        · refine ⟨ratingFromData db1.nextRatingId did dr.id (extractRatingData di) :: created,
            ?_, ?_, ?_, ?_⟩
          · rw [ihc1, hcrRt, hrt]
            simp
          · simpa using ihc2
          · intro c hc
            rcases List.mem_cons.mp hc with hc | hc
            · subst hc
              refine ⟨rfl, ?_⟩
              show db.nextRatingId ≤ db1.nextRatingId
              rw [hnr]
            · have hmem := ihc3 c hc
              rw [hcrNr, hnr] at hmem
              exact ⟨hmem.1, by omega⟩
          · simp [ratingFromData, ihc4]
        · rcases hbr with ⟨hd, _⟩ | ⟨hdrv, hid, hn, _⟩
          · refine ⟨nds, ?_, ?_⟩
            · rw [ihn1, hcrDrv, hd]
            · intro d hd2
              have hle := ihn2 d hd2
              rw [hcrNd, hd] at hle
              exact hle
          · refine ⟨dr :: nds, ?_, ?_⟩
            · rw [ihn1, hcrDrv, hdrv]
              simp
            · intro d hd2
              rcases List.mem_cons.mp hd2 with hd2 | hd2
              · subst hd2
                exact le_of_eq hid.symm
              · have hle := ihn2 d hd2
                rw [hcrNd, hn] at hle
                omega
        · simpa using ihlen
        · simp [ihupds]

theorem processDrivers_updates (now did : Nat) :
    ∀ (inputs : List DriverInput) (db db' : DB) (procs : List Driver)
      (upds : List DriverUpdate),
      processDrivers now did inputs db = Except.ok (db', procs, upds) →
      (∀ x ∈ db.drivers, x.id < db.nextDriverId) →
      ∀ u ∈ upds,
        (∃ d0, findDriver db u.id = some d0 ∧ u.totalDeliveries = d0.totalDeliveries + 1 ∧
          u.lastDelivery = now) ∨
        (db.nextDriverId ≤ u.id ∧ u.totalDeliveries = 1 ∧ u.lastDelivery = now) := by
  intro inputs
  induction inputs with
  | nil =>
    intro db db' procs upds h hfresh u hu
    simp only [processDrivers, Except.ok.injEq, Prod.mk.injEq] at h
    obtain ⟨_, _, hu'⟩ := h
    subst hu'
    simp at hu
  | cons di rest ih =>
    intro db db' procs upds h hfresh u hu
    unfold processDrivers at h
    cases heq1 : resolveDriver db di with
    | error e => simp only [heq1] at h; exact absurd h (by simp)
    | ok p =>
      obtain ⟨db1, dr⟩ := p
      simp only [heq1] at h
      cases heq2 : processDrivers now did rest (createRating db1 did dr.id (extractRatingData di)) with
      | error e => simp only [heq2] at h; exact absurd h (by simp)
      | ok q =>
        obtain ⟨db3, procs', upds'⟩ := q
        simp only [heq2, Except.ok.injEq, Prod.mk.injEq] at h
        obtain ⟨hdb, hprocs, hupds⟩ := h
        subst hdb hprocs hupds
        obtain ⟨hrq, hdl, hnd, hrt, hnr, hbr⟩ := resolveDriver_spec db di db1 dr heq1
        have hcrDrv : (createRating db1 did dr.id (extractRatingData di)).drivers =
            db1.drivers := rfl
        have hcrNd : (createRating db1 did dr.id (extractRatingData di)).nextDriverId =
            db1.nextDriverId := rfl
        rcases List.mem_cons.mp hu with hu | hu
        · subst hu
          rcases hbr with ⟨hd, hfind⟩ | ⟨hdrv, hid, hn, ht0⟩
          · exact Or.inl ⟨dr, hfind, rfl, rfl⟩
          · refine Or.inr ⟨le_of_eq hid.symm, ?_, rfl⟩
            show dr.totalDeliveries + 1 = 1
            rw [ht0]
        · have hfresh2 : ∀ x ∈ (createRating db1 did dr.id (extractRatingData di)).drivers,
              x.id < (createRating db1 did dr.id (extractRatingData di)).nextDriverId := by
            intro x hx
            rw [hcrDrv] at hx
            rw [hcrNd]
            rcases hbr with ⟨hd, _⟩ | ⟨hdrv, hid, hn, _⟩
            · rw [hd] at hx ⊢
              exact hfresh x hx
            · rw [hdrv] at hx
              rw [hn]
              rcases List.mem_append.mp hx with hx | hx
              · have := hfresh x hx
                omega
              · have hxdr : x = dr := by simpa using hx
                subst hxdr
                rw [hid]
                omega
          have htr := ih _ _ _ _ heq2 hfresh2 u hu
          have hf2 : findDriver (createRating db1 did dr.id (extractRatingData di)) u.id =
              db1.drivers.find? (fun d => decide (d.id = u.id)) := rfl
          rcases htr with ⟨d0, hfind, hval, hlast⟩ | ⟨hge, hval, hlast⟩
          · rw [hf2] at hfind
            rcases hbr with ⟨hd, _⟩ | ⟨hdrv, hid, hn, ht0⟩
            · rw [hd] at hfind
              exact Or.inl ⟨d0, hfind, hval, hlast⟩
            · rw [hdrv, List.find?_append] at hfind
              cases hcase : db.drivers.find? (fun d => decide (d.id = u.id)) with
              | some d1 =>
                rw [hcase] at hfind
                simp only [Option.or_some, Option.some.injEq] at hfind
                rw [← hfind] at hval
                exact Or.inl ⟨d1, hcase, hval, hlast⟩
              | none =>
                rw [hcase] at hfind
                simp only [Option.none_or] at hfind
                have hd0 : d0 = dr ∧ dr.id = u.id := by
                  by_cases hp : dr.id = u.id
                  · simp only [List.find?, decide_eq_true hp, Option.some.injEq] at hfind
                    exact ⟨hfind.symm, hp⟩
                  · simp only [List.find?, decide_eq_false hp] at hfind
                    exact absurd hfind (by simp)
                refine Or.inr ⟨?_, ?_, hlast⟩
                · rw [← hd0.2, hid]
                · rw [hval, hd0.1, ht0]
          · refine Or.inr ⟨?_, hval, hlast⟩
            rw [hcrNd] at hge
            rcases hbr with ⟨hd, _⟩ | ⟨_, _, hn, _⟩
            · rw [hd] at hge
              exact hge
            · rw [hn] at hge
              omega

theorem logCreateAndProcess_ok (db : DB) (rid : Nat) (dd : DeliveryData) (now : Nat)
    (db1 : DB) (res : AttemptResult)
    (h : logCreateAndProcess db rid dd now = Except.ok (db1, res)) :
    ∃ db2 db3,
      res.delivery = newDeliveryRow db rid dd ∧
      db2.requests = db.requests ∧
      db2.drivers = db.drivers ∧
      db2.nextDriverId = db.nextDriverId ∧
      db2.ratings = db.ratings ∧
      db2.nextRatingId = db.nextRatingId ∧
      db2.deliveries = db.deliveries ++ [newDeliveryRow db rid dd] ∧
      db2.nextDeliveryId = db.nextDeliveryId + 1 ∧
      processDrivers now db.nextDeliveryId dd.drivers db2 =
        Except.ok (db3, res.drivers, res.driverUpdates) ∧
      db1 = updateRequestRow db3 rid (fun r => { r with status := Status.processing }) := by
  unfold logCreateAndProcess at h
  cases heq : processDrivers now (newDeliveryRow db rid dd).id dd.drivers
      { db with deliveries := db.deliveries ++ [newDeliveryRow db rid dd]
                nextDeliveryId := db.nextDeliveryId + 1 } with
  | error e => simp only [heq] at h; exact absurd h (by simp)
  | ok q =>
    obtain ⟨db3, procs, upds⟩ := q
    simp only [heq, Except.ok.injEq, Prod.mk.injEq] at h
    obtain ⟨hdb, hres⟩ := h
    subst hdb
    subst hres
    exact ⟨{ db with deliveries := db.deliveries ++ [newDeliveryRow db rid dd]
                     nextDeliveryId := db.nextDeliveryId + 1 }, db3,
      rfl, rfl, rfl, rfl, rfl, rfl, rfl, rfl, heq, rfl⟩

theorem logDeliveryAttempt_spec (db : DB) (rid : Nat) (dd : DeliveryData) (now : Nat)
    (db1 : DB) (res : AttemptResult)
    (hok : logDeliveryAttempt db rid dd now = Except.ok (db1, res)) :
    ∃ req dbPre,
      findRequest db rid = some req ∧
      (req.status = Status.planned ∨ req.status = Status.processing) ∧
      dbPre.requests = db.requests ∧
      dbPre.drivers = db.drivers ∧
      dbPre.nextDriverId = db.nextDriverId ∧
      dbPre.nextDeliveryId = db.nextDeliveryId ∧
      dbPre.nextRatingId = db.nextRatingId ∧
      ((∃ d, findDeliveryByRequest db rid = some d ∧ req.status = Status.processing ∧
          dbPre = destroyDeliveryCascade db d) ∨
        (findDeliveryByRequest db rid = none ∧ dbPre = db)) ∧
      logCreateAndProcess dbPre rid dd now = Except.ok (db1, res) := by
  unfold logDeliveryAttempt at hok
  cases hreq : findRequest db rid with
  | none => simp only [hreq] at hok; exact absurd hok (by simp)
  | some req =>
    simp only [hreq] at hok
    by_cases hst : req.status = Status.planned ∨ req.status = Status.processing
    · rw [if_pos hst] at hok
      cases hdel : findDeliveryByRequest db rid with
      | some d =>
        simp only [hdel] at hok
        by_cases hp : req.status = Status.processing
        · rw [if_pos hp] at hok
          exact ⟨req, destroyDeliveryCascade db d, rfl, hst, rfl, rfl, rfl, rfl, rfl,
            Or.inl ⟨d, rfl, hp, rfl⟩, hok⟩
        · rw [if_neg hp] at hok
          exact absurd hok (by simp)
      | none =>
        simp only [hdel] at hok
        exact ⟨req, db, rfl, hst, rfl, rfl, rfl, rfl, rfl, Or.inr ⟨rfl, rfl⟩, hok⟩
    · rw [if_neg hst] at hok
      exact absurd hok (by simp)

theorem logDeliveryAttempt_requests (db : DB) (rid : Nat) (dd : DeliveryData) (now : Nat)
    (db1 : DB) (res : AttemptResult)
    (hok : logDeliveryAttempt db rid dd now = Except.ok (db1, res)) :
    db1.requests = updateWhere (fun r => r.id) rid
      (fun r => { r with status := Status.processing }) db.requests ∧
    ∃ req, findRequest db rid = some req ∧
      (req.status = Status.planned ∨ req.status = Status.processing) := by
  obtain ⟨req, dbPre, hreq, hst, hpreRq, _, _, _, _, _, hcp⟩ :=
    logDeliveryAttempt_spec db rid dd now db1 res hok
  obtain ⟨db2, db3, _, h2rq, _, _, _, _, _, _, hproc, hdb1⟩ :=
    logCreateAndProcess_ok dbPre rid dd now db1 res hcp
  obtain ⟨hrq3, _, _, _, _, _, _, _⟩ := processDrivers_spec now dbPre.nextDeliveryId
    dd.drivers _ _ _ _ hproc
  constructor
  · rw [hdb1]
    show updateWhere (fun r => r.id) rid
      (fun r => { r with status := Status.processing }) db3.requests = _
    rw [hrq3, h2rq, hpreRq]
  · exact ⟨req, hreq, hst⟩

theorem logDeliveryAttempt_drivers (db : DB) (rid : Nat) (dd : DeliveryData) (now : Nat)
    (db1 : DB) (res : AttemptResult)
    (hok : logDeliveryAttempt db rid dd now = Except.ok (db1, res))
    (hfresh : ∀ x ∈ db.drivers, x.id < db.nextDriverId) :
    (∃ nds, db1.drivers = db.drivers ++ nds ∧ ∀ d ∈ nds, db.nextDriverId ≤ d.id) ∧
    (∀ u ∈ res.driverUpdates,
      (∃ d0, findDriver db u.id = some d0 ∧ u.totalDeliveries = d0.totalDeliveries + 1 ∧
        u.lastDelivery = now) ∨
      (db.nextDriverId ≤ u.id ∧ u.totalDeliveries = 1 ∧ u.lastDelivery = now)) := by
  obtain ⟨req, dbPre, hreq, hst, hpreRq, hpreDrv, hpreNd, hpreNdl, hpreNr, hbranch, hcp⟩ :=
    logDeliveryAttempt_spec db rid dd now db1 res hok
  obtain ⟨db2, db3, hdel, h2rq, h2drv, h2nd, h2rt, h2nr, h2dl, h2ndl, hproc, hdb1⟩ :=
    logCreateAndProcess_ok dbPre rid dd now db1 res hcp
  obtain ⟨_, _, _, _, _, ⟨nds, hn1, hn2⟩, _, _⟩ := processDrivers_spec now dbPre.nextDeliveryId
    dd.drivers _ _ _ _ hproc
  constructor
  · refine ⟨nds, ?_, ?_⟩
    · have hd13 : db1.drivers = db3.drivers := by rw [hdb1]; rfl
      rw [hd13, hn1, h2drv, hpreDrv]
    · intro d hd
      have := hn2 d hd
      rw [h2nd, hpreNd] at this
      exact this
  · intro u hu
    have hfresh2 : ∀ x ∈ db2.drivers, x.id < db2.nextDriverId := by
      intro x hx
      rw [h2drv, hpreDrv] at hx
      rw [h2nd, hpreNd]
      exact hfresh x hx
    have htr := processDrivers_updates now dbPre.nextDeliveryId dd.drivers _ _ _ _
      hproc hfresh2 u hu
    have hfeq : findDriver db2 u.id = findDriver db u.id := by
      show db2.drivers.find? _ = db.drivers.find? _
      rw [h2drv, hpreDrv]
    rcases htr with ⟨d0, hfind, hval, hlast⟩ | ⟨hge, hval, hlast⟩
    · rw [hfeq] at hfind
      exact Or.inl ⟨d0, hfind, hval, hlast⟩
    · rw [h2nd, hpreNd] at hge
      exact Or.inr ⟨hge, hval, hlast⟩

/- ===== C3: status machine ===== -/

theorem find?_filter_of_imp {α : Type} (p q : α → Bool) (l : List α)
    (h : ∀ a, p a = true → q a = true) :
    (l.filter q).find? p = l.find? p := by
  induction l with
  | nil => rfl
  | cons a t ih =>
    cases hq : q a with
    | true =>
      rw [List.filter_cons_of_pos hq]
      cases hp : p a
      · simp only [List.find?_cons, hp, cond_false]
        exact ih
      · simp only [List.find?_cons, hp, cond_true]
    | false =>
      have hp : p a = false := by
        cases hpa : p a
        · rfl
        · have h2 := h a hpa
          rw [hq] at h2
          exact absurd h2 (by simp)
      rw [List.filter_cons_of_neg (by simp [hq])]
      rw [ih]
      simp [List.find?_cons, hp]

theorem refreshDriverStats_tables (failures : List Nat) :
    ∀ (upds : List DriverUpdate) (db : DB),
      (refreshDriverStats failures db upds).requests = db.requests ∧
      (refreshDriverStats failures db upds).deliveries = db.deliveries ∧
      (refreshDriverStats failures db upds).ratings = db.ratings := by
  intro upds
  induction upds with
  | nil => intro db; exact ⟨rfl, rfl, rfl⟩
  | cons u rest ih =>
    intro db
    simp only [refreshDriverStats]
    by_cases hf : u.id ∈ failures
    · simp only [if_pos hf]
      exact ih db
    · simp only [if_neg hf]
      have h2 := ih (updateDriverRow db u.id (statsWrite u (calculateDriverOverallRating db u.id)))
      exact ⟨h2.1, h2.2.1, h2.2.2⟩

theorem runAttempt_ok (db : DB) (rid : Nat) (dd : DeliveryData) (now : Nat) (e : TxEnv)
    (db1 : DB) (res : AttemptResult)
    (h : runAttempt db rid dd now e = Except.ok (db1, res)) :
    logDeliveryAttempt db rid dd now = Except.ok (db1, res) := by
  cases e with
  | fault msg => simp [runAttempt] at h
  | normal => exact h

theorem statusOf_logDeliveryAttempt (db : DB) (rid : Nat) (dd : DeliveryData) (now : Nat)
    (db1 : DB) (res : AttemptResult)
    (hok : logDeliveryAttempt db rid dd now = Except.ok (db1, res))
    (j : Nat) (s s' : Status)
    (hpre : statusOf db j = some s) (hpost : statusOf db1 j = some s') :
    s' = s ∨ (s' = Status.processing ∧ (s = Status.planned ∨ s = Status.processing)) := by
  obtain ⟨hreqs, req, hreq, hst⟩ := logDeliveryAttempt_requests db rid dd now db1 res hok
  have hfind : findRequest db1 j = (findRequest db j).map
      (fun r => if r.id = rid then { r with status := Status.processing } else r) := by
    show db1.requests.find? _ = _
    rw [hreqs]
    simpa using find?_updateWhere (fun r : Request => r.id) rid
      (fun r => { r with status := Status.processing }) (fun r => rfl) db.requests j
  rw [statusOf] at hpre hpost
  cases hfr : findRequest db j with
  | none => rw [hfr] at hpre; exact absurd hpre (by simp)
  | some r =>
    rw [hfr] at hpre
    have hs : r.status = s := by simpa using hpre
    rw [hfind, hfr] at hpost
    simp only [Option.map_some', Option.some.injEq] at hpost
    by_cases hid : r.id = rid
    · rw [if_pos hid] at hpost
      have hjr : r.id = j := by simpa using List.find?_some hfr
      have hjrid : j = rid := by rw [← hjr, hid]
      have hrreq : r = req := by
        rw [← hjrid] at hreq
        rw [hfr] at hreq
        exact Option.some.inj hreq
      right
      refine ⟨?_, ?_⟩
      · show s' = Status.processing
        exact hpost.symm
      · rw [← hs, hrreq]
        exact hst
    · rw [if_neg hid] at hpost
      left
      rw [← hs, hpost]

theorem logLoop_status (rid : Nat) (dd : DeliveryData) (now : Nat) (env : Nat → TxEnv)
    (failures : List Nat) :
    ∀ (fuel rc : Nat) (db : DB) (j : Nat) (s s' : Status),
      statusOf db j = some s →
      statusOf (logLoop rid dd now env failures fuel rc db).db j = some s' →
      s' = s ∨ (s' = Status.processing ∧ (s = Status.planned ∨ s = Status.processing)) := by
  intro fuel
  induction fuel with
  | zero =>
    intro rc db j s s' hpre hpost
    simp only [logLoop] at hpost
    rw [hpre] at hpost
    exact Or.inl (Option.some.inj hpost).symm
  | succ n ih =>
    intro rc db j s s' hpre hpost
    simp only [logLoop] at hpost
    cases hr : runAttempt db rid dd now (env rc) with
    | ok p =>
      obtain ⟨db1, res⟩ := p
      simp only [hr] at hpost
      have hattempt := runAttempt_ok db rid dd now (env rc) db1 res hr
      have hrq := (refreshDriverStats_tables failures res.driverUpdates db1).1
      have hpost1 : statusOf db1 j = some s' := by
        rw [statusOf] at hpost ⊢
        have heqf : findRequest (refreshDriverStats failures db1 res.driverUpdates) j =
            findRequest db1 j := by
          show (refreshDriverStats failures db1 res.driverUpdates).requests.find? _ = _
          rw [hrq]
          rfl
        rw [heqf] at hpost
        exact hpost
      exact statusOf_logDeliveryAttempt db rid dd now db1 res hattempt j s s' hpre hpost1
    | error msg =>
      simp only [hr] at hpost
      by_cases hlock : isLockError msg = true
      · simp only [hlock, if_true] at hpost
        by_cases hrc : rc + 1 < maxRetries
        · simp only [if_pos hrc] at hpost
          exact ih (rc + 1) db j s s' hpre hpost
        · simp only [if_neg hrc] at hpost
          rw [hpre] at hpost
          exact Or.inl (Option.some.inj hpost).symm
      · simp only [Bool.not_eq_true] at hlock
        simp only [hlock, Bool.false_eq_true, if_false] at hpost
        rw [hpre] at hpost
        exact Or.inl (Option.some.inj hpost).symm

/-- C3(corrected): the claimed transition list is violated by the code —
`updateRequest` accepts `status: 'planned'` for a request currently in
`processing` (its schema admits planned/cancelled and the service only
blocks `completed`), producing the regression `processing → planned`
which the claimed list excludes. -/
theorem status_machine_counterexample :
    statusOf dbTwoRequests 2 = some Status.processing ∧
    statusOf (applyOp dbTwoRequests (PublicOp.updateReq 2 updToPlanned)) 2 =
      some Status.planned ∧
    ¬ claimedTransition Status.processing Status.planned := by
  refine ⟨by decide, by decide, ?_⟩
  intro h
  rcases h with h | h | h | h
  · exact absurd h (by decide)
  · exact absurd h.1 (by decide)
  · exact absurd h.2 (by decide)
  · exact absurd h.2 (by decide)

/-- C3(amended): through every public operation (logDelivery,
confirmCompletion, request create/update/delete) the status never leaves
`completed`, only enters `completed` from `processing`, and only enters
`processing` from `planned` or `processing`; however `updateRequest` may
additionally reset any non-completed request to `planned` or `cancelled`,
so `processing → planned` and `cancelled → planned` are reachable and the
spec's transition list is not exhaustive. -/
theorem status_machine_code (db : DB) (op : PublicOp) (j : Nat) (s s' : Status)
    (hpre : statusOf db j = some s)
    (hpost : statusOf (applyOp db op) j = some s') :
    codeTransition s s' := by
  have hrefl : ∀ t : Status, codeTransition t t :=
    fun t => ⟨id, fun h => Or.inr h, fun h => Or.inr h⟩
  have hofSome : ∀ (d : DB) (t : Status), statusOf d j = some t →
      ∃ r, findRequest d j = some r ∧ r.status = t ∧ r.id = j := by
    intro d t ht
    rw [statusOf] at ht
    cases hfr : findRequest d j with
    | none => rw [hfr] at ht; exact absurd ht (by simp)
    | some r =>
      rw [hfr] at ht
      exact ⟨r, rfl, by simpa using ht, by simpa using List.find?_some hfr⟩
  cases op with
  | logDelivery rid dd now env failures =>
    simp only [applyOp, logDeliveryWithDrivers] at hpost
    have h2 := logLoop_status rid dd now env failures maxRetries 0 db j s s' hpre hpost
    rcases h2 with h2 | ⟨h2, h3⟩
    · rw [h2]; exact hrefl s
    · subst h2
      refine ⟨?_, ?_, fun _ => h3⟩
      · intro hc
        rcases h3 with h3 | h3 <;> rw [h3] at hc <;> exact absurd hc (by decide)
      · intro hc
        exact absurd hc (by decide)
  | confirmCompletion rid =>
    obtain ⟨r, hfr, hrs, hrj⟩ := hofSome db s hpre
    simp only [applyOp] at hpost
    unfold confirmDeliveryCompletion at hpost
    cases hreq : findRequest db rid with
    | none =>
      simp only [hreq] at hpost
      rw [hpre] at hpost
      rw [(Option.some.inj hpost).symm]
      exact hrefl s
    | some req =>
      simp only [hreq] at hpost
      by_cases hp : req.status = Status.processing
      · rw [if_pos hp] at hpost
        simp only [statusOf] at hpost
        rw [findRequest_updateRequestRow db rid
          (fun r => { r with status := Status.completed }) (fun r => rfl) j, hfr] at hpost
        simp only [Option.map_some', Option.some.injEq] at hpost
        by_cases hid : r.id = rid
        · rw [if_pos hid] at hpost
          have hjrid : j = rid := by rw [← hrj, hid]
          have hrreq : r = req := by
            rw [← hjrid] at hreq
            rw [hfr] at hreq
            exact Option.some.inj hreq
          have hs' : s' = Status.completed := hpost.symm
          have hsp : s = Status.processing := by rw [← hrs, hrreq]; exact hp
          subst hs'
          subst hsp
          exact ⟨fun h => absurd h (by decide), fun _ => Or.inl rfl,
            fun h => absurd h (by decide)⟩
        · rw [if_neg hid] at hpost
          rw [(hrs ▸ hpost : s = s')]
          exact hrefl s'
      · rw [if_neg hp] at hpost
        rw [hpre] at hpost
        rw [(Option.some.inj hpost).symm]
        exact hrefl s
  | createReq rd =>
    obtain ⟨r, hfr, hrs, hrj⟩ := hofSome db s hpre
    simp only [applyOp] at hpost
    simp only [statusOf] at hpost
    have happ : findRequest (createRequest db rd).1 j =
        (db.requests.find? (fun x => decide (x.id = j))).or
          (([newRequestRow db rd] : List Request).find? (fun x => decide (x.id = j))) := by
      show (db.requests ++ [newRequestRow db rd]).find? _ = _
      rw [List.find?_append]
    rw [happ] at hpost
    have hfr2 : db.requests.find? (fun x => decide (x.id = j)) = some r := hfr
    rw [hfr2] at hpost
    simp only [Option.or_some, Option.map_some', Option.some.injEq] at hpost
    rw [(hrs ▸ hpost : s = s')]
    exact hrefl s'
  | updateReq rid u =>
    obtain ⟨r, hfr, hrs, hrj⟩ := hofSome db s hpre
    simp only [applyOp] at hpost
    unfold updateRequest at hpost
    by_cases hv : updateStatusValid u = true
    · rw [if_pos hv] at hpost
      cases hreq : findRequest db rid with
      | none =>
        simp only [hreq] at hpost
        rw [hpre] at hpost
        rw [(Option.some.inj hpost).symm]
        exact hrefl s
      | some req =>
        simp only [hreq] at hpost
        by_cases hc : req.status = Status.completed
        · rw [if_pos hc] at hpost
          rw [hpre] at hpost
          rw [(Option.some.inj hpost).symm]
          exact hrefl s
        · rw [if_neg hc] at hpost
          simp only [statusOf] at hpost
          rw [findRequest_updateRequestRow db rid
            (fun r => { r with status := u.status.getD r.status
                               pickUpDateTime := u.pickUpDateTime.getD r.pickUpDateTime
                               estimatedCost :=
                                 match u.estimatedCost with
                                 | some c => some c
                                 | none => r.estimatedCost }) (fun r => rfl) j, hfr] at hpost
          simp only [Option.map_some', Option.some.injEq] at hpost
          by_cases hid : r.id = rid
          · rw [if_pos hid] at hpost
            have hjrid : j = rid := by rw [← hrj, hid]
            have hrreq : r = req := by
              rw [← hjrid] at hreq
              rw [hfr] at hreq
              exact Option.some.inj hreq
            have hs' : u.status.getD r.status = s' := hpost
            have hsc : s ≠ Status.completed := by
              rw [← hrs, hrreq]; exact hc
            cases hu : u.status with
            | none =>
              rw [hu] at hs'
              simp only [Option.getD_none] at hs'
              rw [← hrs, hs']
              exact hrefl s'
            | some st =>
              rw [hu] at hs'
              simp only [Option.getD_some] at hs'
              have hstv : st = Status.planned ∨ st = Status.cancelled := by
                unfold updateStatusValid at hv
                rw [hu] at hv
                cases st
                · exact Or.inl rfl
                · exact absurd hv (by simp)
                · exact absurd hv (by simp)
                · exact Or.inr rfl
              subst hs'
              refine ⟨fun h => absurd h hsc, ?_, ?_⟩
              · intro h
                rcases hstv with h2 | h2 <;> rw [h2] at h <;> exact absurd h (by decide)
              · intro h
                rcases hstv with h2 | h2 <;> rw [h2] at h <;> exact absurd h (by decide)
          · rw [if_neg hid] at hpost
            rw [(hrs ▸ hpost : s = s')]
            exact hrefl s'
    · rw [if_neg hv] at hpost
      rw [hpre] at hpost
      rw [(Option.some.inj hpost).symm]
      exact hrefl s
  | deleteReq rid =>
    obtain ⟨r, hfr, hrs, hrj⟩ := hofSome db s hpre
    simp only [applyOp] at hpost
    unfold deleteRequest at hpost
    cases hreq : findRequest db rid with
    | none =>
      simp only [hreq] at hpost
      rw [hpre] at hpost
      rw [(Option.some.inj hpost).symm]
      exact hrefl s
    | some req =>
      simp only [hreq] at hpost
      by_cases hc : req.status = Status.completed
      · rw [if_pos hc] at hpost
        rw [hpre] at hpost
        rw [(Option.some.inj hpost).symm]
        exact hrefl s
      · rw [if_neg hc] at hpost
        simp only [statusOf] at hpost
        have hcast : findRequest ({ db with requests := db.requests.filter (fun r => decide (r.id ≠ rid)) } : DB) j = (db.requests.filter (fun r => decide (r.id ≠ rid))).find? (fun r => decide (r.id = j)) := rfl
        rw [hcast] at hpost
        by_cases hj : j = rid
        · rw [hj, find?_filter_ne (fun r : Request => r.id) rid db.requests] at hpost
          exact absurd hpost (by simp)
        · have hsame : (db.requests.filter (fun r => decide (r.id ≠ rid))).find?
              (fun r => decide (r.id = j)) = db.requests.find? (fun r => decide (r.id = j)) := by
            refine find?_filter_of_imp _ _ db.requests ?_
            intro a ha
            simp only [decide_eq_true_eq] at ha ⊢
            rw [ha]
            exact hj
          have hfr2 : db.requests.find? (fun r => decide (r.id = j)) = some r := hfr
          rw [hsame, hfr2] at hpost
          simp only [Option.map_some', Option.some.injEq] at hpost
          rw [(hrs ▸ hpost : s = s')]
          exact hrefl s'

/-- Witness for C3(amended) at a concrete input: confirming the sample
processing request moves it processing → completed, an allowed
code-transition. -/
theorem status_machine_code_witness :
    codeTransition Status.processing Status.completed := by
  exact status_machine_code dbTwoRequests (PublicOp.confirmCompletion 2) 2
    Status.processing Status.completed (by decide) (by decide)

/- ===== C5 and C10: post-commit statistics refresh ===== -/

theorem getLast?_mem_of_eq_some {α : Type} {l : List α} {a : α}
    (h : l.getLast? = some a) : a ∈ l := by
  obtain ⟨hne, heq⟩ := List.mem_getLast?_eq_getLast (show a ∈ l.getLast? by simp [Option.mem_def, h])
  rw [heq]
  exact List.getLast_mem hne

theorem logDeliveryWithDrivers_ok (db : DB) (rid : Nat) (dd : DeliveryData) (now : Nat)
    (failures : List Nat) (db1 : DB) (res : AttemptResult)
    (hok : logDeliveryAttempt db rid dd now = Except.ok (db1, res)) :
    logDeliveryWithDrivers db rid dd now (fun _ => TxEnv.normal) failures =
      { db := refreshDriverStats failures db1 res.driverUpdates
        result := Except.ok { delivery := res.delivery, drivers := res.drivers }
        delays := [], attempts := 1 } := by
  simp only [logDeliveryWithDrivers, maxRetries, logLoop, runAttempt, hok]

theorem findDriver_id_of_some (db : DB) (j : Nat) (d : Driver)
    (h : findDriver db j = some d) : d.id = j := by
  simpa using List.find?_some h

theorem refreshDriverStats_untouched (failures : List Nat) :
    ∀ (upds : List DriverUpdate) (db : DB) (j : Nat),
      ((∀ u ∈ upds, u.id ≠ j) ∨ j ∈ failures) →
      findDriver (refreshDriverStats failures db upds) j = findDriver db j := by
  intro upds
  induction upds with
  | nil => intro db j _; rfl
  | cons v rest ih =>
    intro db j hyp
    simp only [refreshDriverStats]
    have hvj : v.id ∈ failures ∨ v.id ≠ j := by
      rcases hyp with hl | hr
      · exact Or.inr (hl v (List.mem_cons_self v rest))
      · by_cases hv : v.id = j
        · rw [hv]; exact Or.inl hr
        · exact Or.inr hv
    have hstep : ∀ db0 : DB,
        findDriver (if v.id ∈ failures then db0
          else updateDriverRow db0 v.id (statsWrite v (calculateDriverOverallRating db0 v.id))) j =
          findDriver db0 j := by
      intro db0
      by_cases hf : v.id ∈ failures
      · rw [if_pos hf]
      · rw [if_neg hf]
        have hne : v.id ≠ j := by
          rcases hvj with h | h
          · exact absurd h hf
          · exact h
        rw [findDriver_updateDriverRow db0 v.id
          (statsWrite v (calculateDriverOverallRating db0 v.id)) (fun d => rfl) j]
        cases hfd : findDriver db0 j with
        | none => rfl
        | some d =>
          have hdj : d.id = j := findDriver_id_of_some db0 j d hfd
          simp only [Option.map_some']
          rw [if_neg (by rw [hdj]; exact fun hh => hne hh.symm)]
    have hrest : (∀ u ∈ rest, u.id ≠ j) ∨ j ∈ failures := by
      rcases hyp with hl | hr
      · exact Or.inl (fun u hu => hl u (List.mem_cons_of_mem v hu))
      · exact Or.inr hr
    rw [ih _ j hrest]
    exact hstep db

theorem refreshDriverStats_ratings (failures : List Nat) (upds : List DriverUpdate) (db : DB) :
    (refreshDriverStats failures db upds).ratings = db.ratings :=
  (refreshDriverStats_tables failures upds db).2.2

theorem refreshDriverStats_applied (failures : List Nat) :
    ∀ (upds : List DriverUpdate) (db : DB) (j : Nat) (u : DriverUpdate),
      j ∉ failures →
      (upds.filter (fun u => decide (u.id = j))).getLast? = some u →
      findDriver (refreshDriverStats failures db upds) j =
        (findDriver db j).map (statsWrite u (overallFromRatings db.ratings j)) := by
  intro upds
  induction upds with
  | nil =>
    intro db j u _ hlast
    simp at hlast
  | cons v rest ih =>
    intro db j u hnf hlast
    rw [List.filter_cons] at hlast
    simp only [refreshDriverStats]
    by_cases hv : v.id = j
    · rw [if_pos (by simp [hv])] at hlast
      have hvf : v.id ∉ failures := by rw [hv]; exact hnf
      rw [if_neg hvf]
      have hdb' : findDriver (updateDriverRow db v.id
          (statsWrite v (calculateDriverOverallRating db v.id))) j =
          (findDriver db j).map (statsWrite v (overallFromRatings db.ratings j)) := by
        rw [findDriver_updateDriverRow db v.id
          (statsWrite v (calculateDriverOverallRating db v.id)) (fun d => rfl) j]
        cases hfd : findDriver db j with
        | none => rfl
        | some d =>
          have hdj : d.id = j := findDriver_id_of_some db j d hfd
          simp only [Option.map_some']
          rw [if_pos (by rw [hdj, hv])]
          show some _ = some _
          congr 1
          rw [calculateDriverOverallRating, hv]
      cases hfl : rest.filter (fun u => decide (u.id = j)) with
      | nil =>
        rw [hfl] at hlast
        have huv : u = v := by simpa using hlast.symm
        subst huv
        have hnorest : ∀ w ∈ rest, w.id ≠ j := by
          intro w hw hwj
          have hmem : w ∈ rest.filter (fun u => decide (u.id = j)) :=
            List.mem_filter.mpr ⟨hw, by simp [hwj]⟩
          rw [hfl] at hmem
          simp at hmem
        rw [refreshDriverStats_untouched failures rest _ j (Or.inl hnorest)]
        exact hdb'
      | cons b t =>
        rw [hfl, List.getLast?_cons_cons] at hlast
        have hlast' : (rest.filter (fun u => decide (u.id = j))).getLast? = some u := by
          rw [hfl]
          exact hlast
        have hrteq : (updateDriverRow db v.id
            (statsWrite v (calculateDriverOverallRating db v.id))).ratings = db.ratings := rfl
        have hIH := ih (updateDriverRow db v.id
          (statsWrite v (calculateDriverOverallRating db v.id))) j u hnf hlast'
        rw [hrteq] at hIH
        rw [hIH, hdb', Option.map_map]
        cases hfd : findDriver db j with
        | none => rfl
        | some d => rfl
    · rw [if_neg (by simp [hv])] at hlast
      by_cases hf : v.id ∈ failures
      · rw [if_pos hf]
        exact ih db j u hnf hlast
      · rw [if_neg hf]
        have hrteq : (updateDriverRow db v.id
            (statsWrite v (calculateDriverOverallRating db v.id))).ratings = db.ratings := rfl
        have hIH := ih (updateDriverRow db v.id
          (statsWrite v (calculateDriverOverallRating db v.id))) j u hnf hlast
        rw [hrteq] at hIH
        rw [hIH]
        have hstep : findDriver (updateDriverRow db v.id
            (statsWrite v (calculateDriverOverallRating db v.id))) j = findDriver db j := by
          rw [findDriver_updateDriverRow db v.id
            (statsWrite v (calculateDriverOverallRating db v.id)) (fun d => rfl) j]
          cases hfd : findDriver db j with
          | none => rfl
          | some d =>
            have hdj : d.id = j := findDriver_id_of_some db j d hfd
            simp only [Option.map_some']
            rw [if_neg (by rw [hdj]; exact fun hh => hv hh.symm)]
        rw [hstep]

/-- C5: the post-commit statistics refresh runs outside the committed
transaction with per-driver error isolation — for every failure
environment, `logDeliveryWithDrivers` still returns its success result,
the committed request rows, Delivery rows and DriverRating rows are
exactly those of the commit (never rolled back), a driver whose refresh
failed keeps its committed row, and every driver outside the failure set
ends in the same state as in the failure-free run. -/
theorem logDelivery_postcommit_isolation (db : DB) (rid : Nat) (dd : DeliveryData)
    (now : Nat) (db1 : DB) (res : AttemptResult)
    (hok : logDeliveryAttempt db rid dd now = Except.ok (db1, res)) (failures : List Nat) :
    (logDeliveryWithDrivers db rid dd now (fun _ => TxEnv.normal) failures).result =
      Except.ok { delivery := res.delivery, drivers := res.drivers } ∧
    (logDeliveryWithDrivers db rid dd now (fun _ => TxEnv.normal) failures).db.requests =
      db1.requests ∧
    (logDeliveryWithDrivers db rid dd now (fun _ => TxEnv.normal) failures).db.deliveries =
      db1.deliveries ∧
    (logDeliveryWithDrivers db rid dd now (fun _ => TxEnv.normal) failures).db.ratings =
      db1.ratings ∧
    (∀ j, j ∈ failures →
      findDriver (logDeliveryWithDrivers db rid dd now (fun _ => TxEnv.normal) failures).db j =
        findDriver db1 j) ∧
    (∀ j, j ∉ failures →
      findDriver (logDeliveryWithDrivers db rid dd now (fun _ => TxEnv.normal) failures).db j =
        findDriver (logDeliveryWithDrivers db rid dd now (fun _ => TxEnv.normal) []).db j) := by
  rw [logDeliveryWithDrivers_ok db rid dd now failures db1 res hok,
    logDeliveryWithDrivers_ok db rid dd now [] db1 res hok]
  refine ⟨rfl, (refreshDriverStats_tables _ _ _).1, (refreshDriverStats_tables _ _ _).2.1,
    (refreshDriverStats_tables _ _ _).2.2, ?_, ?_⟩
  · intro j hj
    exact refreshDriverStats_untouched failures res.driverUpdates db1 j (Or.inr hj)
  · intro j hj
    cases hfl : (res.driverUpdates.filter (fun u => decide (u.id = j))).getLast? with
    | none =>
      have hnil : res.driverUpdates.filter (fun u => decide (u.id = j)) = [] :=
        List.getLast?_eq_none_iff.mp hfl
      have hnone : ∀ u ∈ res.driverUpdates, u.id ≠ j := by
        intro u hu hne
        have hm : u ∈ res.driverUpdates.filter (fun u => decide (u.id = j)) :=
          List.mem_filter.mpr ⟨hu, by simp [hne]⟩
        rw [hnil] at hm
        simp at hm
      rw [refreshDriverStats_untouched failures _ _ j (Or.inl hnone),
        refreshDriverStats_untouched [] _ _ j (Or.inl hnone)]
    | some u =>
      rw [refreshDriverStats_applied failures _ _ j u hj hfl,
        refreshDriverStats_applied [] _ _ j u (by simp) hfl]

/-- C10: after a successful `logDelivery` whose statistics refresh for a
referenced driver did not fail, that driver's `totalDeliveries` equals
its value at the start of the call plus one and `lastDelivery` is the
call time — also on the re-log path, where the prior Delivery and its
ratings were destroyed, so the counter counts logging attempts and is
never decremented by those deletions. -/
theorem logDelivery_increments_totals (db : DB) (rid : Nat) (dd : DeliveryData)
    (now : Nat) (db1 : DB) (res : AttemptResult) (failures : List Nat) (i : Nat) (dr : Driver)
    (hok : logDeliveryAttempt db rid dd now = Except.ok (db1, res))
    (hfresh : ∀ x ∈ db.drivers, x.id < db.nextDriverId)
    (hdrv : findDriver db i = some dr)
    (hproc : ∃ u ∈ res.driverUpdates, u.id = i)
    (hnf : i ∉ failures) :
    ∃ dr', findDriver
        (logDeliveryWithDrivers db rid dd now (fun _ => TxEnv.normal) failures).db i =
        some dr' ∧
      dr'.totalDeliveries = dr.totalDeliveries + 1 ∧ dr'.lastDelivery = some now := by
  rw [logDeliveryWithDrivers_ok db rid dd now failures db1 res hok]
  obtain ⟨⟨nds, hnds1, hnds2⟩, hupds⟩ := logDeliveryAttempt_drivers db rid dd now db1 res hok hfresh
  have hival : ∀ u ∈ res.driverUpdates, u.id = i →
      u.totalDeliveries = dr.totalDeliveries + 1 ∧ u.lastDelivery = now := by
    intro u hu hui
    rcases hupds u hu with ⟨d0, hf0, hv, hl⟩ | ⟨hge, hv, hl⟩
    · rw [hui, hdrv] at hf0
      have : dr = d0 := Option.some.inj hf0
      rw [← this] at hv
      exact ⟨hv, hl⟩
    · have hmem := List.mem_of_find?_eq_some hdrv
      have hlt := hfresh dr hmem
      have hdi : dr.id = i := findDriver_id_of_some db i dr hdrv
      rw [hui] at hge
      omega
  obtain ⟨u0, hu0, hu0i⟩ := hproc
  cases hfl : (res.driverUpdates.filter (fun u => decide (u.id = i))).getLast? with
  | none =>
    have hnil : res.driverUpdates.filter (fun u => decide (u.id = i)) = [] :=
      List.getLast?_eq_none_iff.mp hfl
    have hm : u0 ∈ res.driverUpdates.filter (fun u => decide (u.id = i)) :=
      List.mem_filter.mpr ⟨hu0, by simp [hu0i]⟩
    rw [hnil] at hm
    simp at hm
  | some u =>
    have humem := getLast?_mem_of_eq_some hfl
    have hui : u.id = i := by
      have := (List.mem_filter.mp humem).2
      simpa using this
    have hv := hival u (List.mem_filter.mp humem).1 hui
    rw [refreshDriverStats_applied failures res.driverUpdates db1 i u hnf hfl]
    have hf1 : findDriver db1 i = some dr := by
      show db1.drivers.find? _ = _
      rw [hnds1, List.find?_append]
      rw [show db.drivers.find? (fun d => decide (d.id = i)) = some dr from hdrv]
      rfl
    rw [hf1]
    refine ⟨_, rfl, ?_, ?_⟩
    · show u.totalDeliveries = dr.totalDeliveries + 1
      exact hv.1
    · show some u.lastDelivery = some now
      rw [hv.2]

/- ===== C1: idempotent re-log (replace, never union) ===== -/

/-- C1: a committed `logDelivery` against a `processing` request that
already has a Delivery destroys that Delivery and every DriverRating
linked to it and creates a new Delivery carrying the call's data, so that
afterwards exactly one Delivery exists for the request — the new one —
and the ratings attached to it are exactly one per driver assignment of
this call (their driver ids in order), never a union of both attempts. -/
theorem logDelivery_relog_replaces (db : DB) (rid : Nat) (dd : DeliveryData) (now : Nat)
    (db1 : DB) (res : AttemptResult) (req : Request) (d0 : Delivery)
    (hok : logDeliveryAttempt db rid dd now = Except.ok (db1, res))
    (hreq : findRequest db rid = some req)
    (hst : req.status = Status.processing)
    (hdel : deliveriesFor db rid = [d0])
    (hfd : ∀ x ∈ db.deliveries, x.id < db.nextDeliveryId)
    (hfr2 : ∀ r ∈ db.ratings, r.deliveryId < db.nextDeliveryId) :
    deliveriesFor db1 rid = [res.delivery] ∧
    res.delivery.invoiceAmount = dd.invoiceAmount ∧
    res.delivery.id = db.nextDeliveryId ∧
    d0 ∉ db1.deliveries ∧
    ratingsForDelivery db1 d0.id = [] ∧
    (ratingsForDelivery db1 res.delivery.id).length = dd.drivers.length ∧
    (ratingsForDelivery db1 res.delivery.id).map (fun r => r.driverId) =
      res.drivers.map (fun d => d.id) := by
  obtain ⟨req', dbPre, hreq', hst', hpreRq, hpreDrv, hpreNd, hpreNdl, hpreNr, hbranch, hcp⟩ :=
    logDeliveryAttempt_spec db rid dd now db1 res hok
  have hfindDel : findDeliveryByRequest db rid = some d0 := by
    rw [findDeliveryByRequest, hdel]
    rfl
  have hdbPre : dbPre = destroyDeliveryCascade db d0 := by
    rcases hbranch with ⟨d, hd, _, hpre⟩ | ⟨hnone, _⟩
    · rw [hfindDel] at hd
      rw [hpre, (Option.some.inj hd).symm]
    · rw [hfindDel] at hnone
      exact absurd hnone (by simp)
  have hd0mem : d0 ∈ db.deliveries := by
    have : d0 ∈ deliveriesFor db rid := by rw [hdel]; exact List.mem_singleton.mpr rfl
    exact (List.mem_filter.mp this).1
  have hd0lt : d0.id < db.nextDeliveryId := hfd d0 hd0mem
  obtain ⟨db2, db3, hdeleq, h2rq, h2drv, h2nd, h2rt, h2nr, h2dl, h2ndl, hproc, hdb1⟩ :=
    logCreateAndProcess_ok dbPre rid dd now db1 res hcp
  obtain ⟨_, h3dl, _, _, ⟨created, hc1, hc2, hc3, hc4⟩, _, hplen, hupds⟩ :=
    processDrivers_spec now dbPre.nextDeliveryId dd.drivers _ _ _ _ hproc
  have hpreDl : dbPre.deliveries = db.deliveries.filter (fun x => decide (x.id ≠ d0.id)) := by
    rw [hdbPre]
    rfl
  have hpreRt : dbPre.ratings = db.ratings.filter (fun r => decide (r.deliveryId ≠ d0.id)) := by
    rw [hdbPre]
    rfl
  have hdb1dl : db1.deliveries =
      db.deliveries.filter (fun x => decide (x.id ≠ d0.id)) ++ [newDeliveryRow dbPre rid dd] := by
    have e1 : db1.deliveries = db3.deliveries := by rw [hdb1]; rfl
    rw [e1, h3dl, h2dl, hpreDl]
  have hdb1rt : db1.ratings =
      db.ratings.filter (fun r => decide (r.deliveryId ≠ d0.id)) ++ created := by
    have e1 : db1.ratings = db3.ratings := by rw [hdb1]; rfl
    rw [e1, hc1, h2rt, hpreRt]
  have hnewid : (newDeliveryRow dbPre rid dd).id = db.nextDeliveryId := by
    show dbPre.nextDeliveryId = db.nextDeliveryId
    exact hpreNdl
  have holdnone : (db.deliveries.filter (fun x => decide (x.id ≠ d0.id))).filter
      (fun d => decide (d.requestId = rid)) = [] := by
    refine List.filter_eq_nil_iff.mpr ?_
    intro x hx
    obtain ⟨hxmem, hxne⟩ := List.mem_filter.mp hx
    simp only [decide_eq_true_eq] at hxne ⊢
    intro hxr
    have : x ∈ deliveriesFor db rid := List.mem_filter.mpr ⟨hxmem, by simp [hxr]⟩
    rw [hdel] at this
    have : x = d0 := List.mem_singleton.mp this
    rw [this] at hxne
    exact hxne rfl
  refine ⟨?_, ?_, ?_, ?_, ?_, ?_, ?_⟩
  · rw [deliveriesFor, hdb1dl, List.filter_append, holdnone, hdeleq]
    simp [newDeliveryRow]
  · rw [hdeleq]
    rfl
  · rw [hdeleq]
    exact hnewid
  · intro hmem
    rw [hdb1dl] at hmem
    rcases List.mem_append.mp hmem with hmem | hmem
    · have := (List.mem_filter.mp hmem).2
      simp at this
    · have : d0 = newDeliveryRow dbPre rid dd := List.mem_singleton.mp hmem
      have : d0.id = db.nextDeliveryId := by rw [this]; exact hnewid
      omega
  · rw [ratingsForDelivery, hdb1rt, List.filter_append]
    have hold : (db.ratings.filter (fun r => decide (r.deliveryId ≠ d0.id))).filter
        (fun r => decide (r.deliveryId = d0.id)) = [] := by
      refine List.filter_eq_nil_iff.mpr ?_
      intro r hr
      have := (List.mem_filter.mp hr).2
      simp only [decide_eq_true_eq] at this ⊢
      exact this
    have hcreated : created.filter (fun r => decide (r.deliveryId = d0.id)) = [] := by
      refine List.filter_eq_nil_iff.mpr ?_
      intro c hc
      have hcd := (hc3 c hc).1
      simp only [decide_eq_true_eq]
      rw [hcd, hpreNdl]
      omega
    rw [hold, hcreated]
    rfl
  · rw [ratingsForDelivery, hdb1rt, List.filter_append, hdeleq, hnewid]
    have hold : (db.ratings.filter (fun r => decide (r.deliveryId ≠ d0.id))).filter
        (fun r => decide (r.deliveryId = db.nextDeliveryId)) = [] := by
      refine List.filter_eq_nil_iff.mpr ?_
      intro r hr
      have hrm := (List.mem_filter.mp hr).1
      have := hfr2 r hrm
      simp only [decide_eq_true_eq]
      omega
    have hcreated : created.filter (fun r => decide (r.deliveryId = db.nextDeliveryId)) =
        created := by
      refine List.filter_eq_self.mpr ?_
      intro c hc
      have hcd := (hc3 c hc).1
      simp only [decide_eq_true_eq]
      rw [hcd, hpreNdl]
    rw [hold, hcreated]
    simpa using hc2
  · rw [ratingsForDelivery, hdb1rt, List.filter_append, hdeleq, hnewid]
    have hold : (db.ratings.filter (fun r => decide (r.deliveryId ≠ d0.id))).filter
        (fun r => decide (r.deliveryId = db.nextDeliveryId)) = [] := by
      refine List.filter_eq_nil_iff.mpr ?_
      intro r hr
      have hrm := (List.mem_filter.mp hr).1
      have := hfr2 r hrm
      simp only [decide_eq_true_eq]
      omega
    have hcreated : created.filter (fun r => decide (r.deliveryId = db.nextDeliveryId)) =
        created := by
      refine List.filter_eq_self.mpr ?_
      intro c hc
      have hcd := (hc3 c hc).1
      simp only [decide_eq_true_eq]
      rw [hcd, hpreNdl]
    rw [hold, hcreated]
    simpa using hc4

/-- Witness for C1: the concrete re-log scenario — request 1 is
processing with old delivery `dOld` and rating `rOld`; the second call
leaves exactly the new delivery and exactly one rating for the assigned
driver. -/
theorem logDelivery_relog_replaces_witness :
    deliveriesFor dbRelogCommitted 1 = [dNew] ∧
    dNew.invoiceAmount = 250 ∧
    dOld ∉ dbRelogCommitted.deliveries ∧
    ratingsForDelivery dbRelogCommitted dOld.id = [] ∧
    (ratingsForDelivery dbRelogCommitted dNew.id).map (fun r => r.driverId) = [1] := by
  have h := logDelivery_relog_replaces dbRelog 1 dd2 900 dbRelogCommitted relogResult
    { id := 1, status := Status.processing, pickUpDateTime := 100, estimatedCost := some 50 }
    dOld (by rfl) (by rfl) rfl (by rfl) (by decide) (by decide)
  exact ⟨h.1, h.2.1, h.2.2.2.1, h.2.2.2.2.1, h.2.2.2.2.2.2⟩

/-- Witness for C5: in the concrete re-log scenario with the refresh for
driver 1 failing, the call still succeeds, the committed rows stand, and
driver 1 keeps its committed row. -/
theorem logDelivery_postcommit_isolation_witness :
    (logDeliveryWithDrivers dbRelog 1 dd2 900 (fun _ => TxEnv.normal) [1]).result =
      Except.ok { delivery := dNew, drivers := [drOld] } ∧
    (logDeliveryWithDrivers dbRelog 1 dd2 900 (fun _ => TxEnv.normal) [1]).db.ratings =
      dbRelogCommitted.ratings ∧
    findDriver (logDeliveryWithDrivers dbRelog 1 dd2 900 (fun _ => TxEnv.normal) [1]).db 1 =
      findDriver dbRelogCommitted 1 := by
  have h := logDelivery_postcommit_isolation dbRelog 1 dd2 900 dbRelogCommitted relogResult
    (by rfl) [1]
  exact ⟨h.1, h.2.2.2.1, h.2.2.2.2.1 1 (by simp)⟩

/-- Witness for C10: in the concrete re-log scenario driver 1 goes from
1 to 2 total deliveries with `lastDelivery` set to the call time, even
though its previous rating row was destroyed. -/
theorem logDelivery_increments_totals_witness :
    (findDriver (logDeliveryWithDrivers dbRelog 1 dd2 900 (fun _ => TxEnv.normal) []).db 1).map
      (fun d => (d.totalDeliveries, d.lastDelivery)) = some (2, some 900) := by
  obtain ⟨dr', h1, h2, h3⟩ := logDelivery_increments_totals dbRelog 1 dd2 900 dbRelogCommitted
    relogResult [] 1 drOld (by rfl) (by decide) (by rfl)
    ⟨{ id := 1, totalDeliveries := 2, lastDelivery := 900 }, by decide, rfl⟩ (by simp)
  rw [h1]
  simp only [Option.map_some']
  rw [h2, h3]
  rfl

/- ===== C8: the rating diff of updateDelivery ===== -/

theorem filter_deleted_of_empty (l : List DriverRating) (toDel : List DriverRating)
    (h : toDel.length = 0) :
    l.filter (fun r => decide (¬ (toDel.map (fun x => x.id)).contains r.id)) = l := by
  have he : toDel = [] := List.length_eq_zero.mp h
  subst he
  apply List.filter_eq_self.mpr
  intro a _
  rfl

theorem deleteRatingsStep_ratings (db1 : DB) (delId : Nat) (submitted : List Nat) :
    (deleteRatingsStep db1 delId submitted).ratings =
      db1.ratings.filter (fun r => decide (¬
        ((findRatingsToDelete (ratingsForDelivery db1 delId) submitted).map
          (fun x => x.id)).contains r.id)) := by
  simp only [deleteRatingsStep]
  by_cases hlen : 0 < (findRatingsToDelete (ratingsForDelivery db1 delId) submitted).length
  · rw [if_pos hlen]
  · rw [if_neg hlen]
    rw [filter_deleted_of_empty db1.ratings
      (findRatingsToDelete (ratingsForDelivery db1 delId) submitted)
      (Nat.eq_zero_of_not_pos hlen)]

theorem deleteRatingsStep_next (db1 : DB) (delId : Nat) (submitted : List Nat) :
    (deleteRatingsStep db1 delId submitted).nextRatingId = db1.nextRatingId := by
  simp only [deleteRatingsStep]
  by_cases hlen : 0 < (findRatingsToDelete (ratingsForDelivery db1 delId) submitted).length
  · rw [if_pos hlen]
  · rw [if_neg hlen]

theorem nat_contains_iff (l : List Nat) (x : Nat) : l.contains x = true ↔ x ∈ l := by
  simp

theorem findRating_some_id (db : DB) (i : Nat) (r : DriverRating)
    (h : findRating db i = some r) : r.id = i := by
  have h2 := List.find?_some h
  simpa using h2

theorem fresh_updateRatingRow (db : DB) (j : Nat) (f : DriverRating → DriverRating)
    (hf : ∀ r, (f r).id = r.id)
    (hfresh : ∀ r ∈ db.ratings, r.id < db.nextRatingId) :
    ∀ r ∈ (updateRatingRow db j f).ratings, r.id < (updateRatingRow db j f).nextRatingId := by
  intro r hr
  simp only [updateRatingRow, updateWhere] at hr ⊢
  obtain ⟨r0, hr0, hback⟩ := List.mem_map.mp hr
  have hid : r.id = r0.id := by
    rw [← hback]
    by_cases hc : r0.id = j
    · rw [if_pos hc]
      exact hf r0
    · rw [if_neg hc]
  rw [hid]
  exact hfresh r0 hr0

theorem fresh_createRatingFromEdit (db : DB) (did dId : Nat) (re : RatingEditData)
    (hfresh : ∀ r ∈ db.ratings, r.id < db.nextRatingId) :
    ∀ r ∈ (createRatingFromEdit db did dId re).ratings,
      r.id < (createRatingFromEdit db did dId re).nextRatingId := by
  intro r hr
  simp only [createRatingFromEdit] at hr ⊢
  rcases List.mem_append.mp hr with h | h
  · exact Nat.lt_succ_of_lt (hfresh r h)
  · have he := List.mem_singleton.mp h
    rw [he]
    exact Nat.lt_succ_self db.nextRatingId

theorem findRating_createRatingFromEdit (db : DB) (did dId : Nat) (re : RatingEditData)
    (i : Nat) (hi : i < db.nextRatingId) :
    findRating (createRatingFromEdit db did dId re) i = findRating db i := by
  have hsing : ([newRatingFromEdit db did dId re].find? fun r => decide (r.id = i)) = none := by
    have hne : (newRatingFromEdit db did dId re).id ≠ i := by
      show db.nextRatingId ≠ i
      omega
    simp [List.find?_cons, hne]
  show ((db.ratings ++ [newRatingFromEdit db did dId re]).find? fun r => decide (r.id = i)) =
    db.ratings.find? fun r => decide (r.id = i)
  rw [List.find?_append, hsing]
  cases db.ratings.find? fun r => decide (r.id = i) with
  | none => rfl
  | some r => rfl

theorem processRatingEdits_cons_update (did : Nat) (db : DB) (de : DriverEdit)
    (rest : List DriverEdit) (j : Nat) (rj : DriverRating)
    (h1 : truthyNat de.ratingId = some j) (h2 : findRating db j = some rj) :
    processRatingEdits did db (de :: rest) =
      processRatingEdits did (updateRatingRow db j (applyRatingEdit de.ratings)) rest := by
  simp only [processRatingEdits, h1, h2]

theorem processRatingEdits_cons_update_miss (did : Nat) (db : DB) (de : DriverEdit)
    (rest : List DriverEdit) (j : Nat)
    (h1 : truthyNat de.ratingId = some j) (h2 : findRating db j = none) :
    processRatingEdits did db (de :: rest) = processRatingEdits did db rest := by
  simp only [processRatingEdits, h1, h2]

theorem processRatingEdits_cons_create (did : Nat) (db : DB) (de : DriverEdit)
    (rest : List DriverEdit) (dId : Nat)
    (h1 : truthyNat de.ratingId = none) (h3 : truthyNat de.driver_id = some dId) :
    processRatingEdits did db (de :: rest) =
      processRatingEdits did (createRatingFromEdit db did dId de.ratings) rest := by
  simp only [processRatingEdits, h1, h3]

theorem processRatingEdits_cons_skip (did : Nat) (db : DB) (de : DriverEdit)
    (rest : List DriverEdit)
    (h1 : truthyNat de.ratingId = none) (h3 : truthyNat de.driver_id = none) :
    processRatingEdits did db (de :: rest) = processRatingEdits did db rest := by
  simp only [processRatingEdits, h1, h3]

theorem processRatingEdits_survives (did : Nat) :
    ∀ (drivers : List DriverEdit) (db : DB) (r : DriverRating), r ∈ db.ratings →
      ∃ r' ∈ (processRatingEdits did db drivers).ratings,
        r'.id = r.id ∧ r'.deliveryId = r.deliveryId ∧ r'.driverId = r.driverId := by
  intro drivers
  induction drivers with
  | nil =>
    intro db r hr
    exact ⟨r, hr, rfl, rfl, rfl⟩
  | cons de rest ih =>
    intro db r hr
    cases h1 : truthyNat de.ratingId with
    | some j =>
      cases h2 : findRating db j with
      | some rj =>
        rw [processRatingEdits_cons_update did db de rest j rj h1 h2]
        have hmem : (if r.id = j then applyRatingEdit de.ratings r else r) ∈
            (updateRatingRow db j (applyRatingEdit de.ratings)).ratings := by
          show _ ∈ db.ratings.map (fun a => if a.id = j then applyRatingEdit de.ratings a else a)
          exact List.mem_map.mpr ⟨r, hr, rfl⟩
        obtain ⟨r', hr', hid, hdl, hdr⟩ := ih _ _ hmem
        have hmeta : (if r.id = j then applyRatingEdit de.ratings r else r).id = r.id ∧
            (if r.id = j then applyRatingEdit de.ratings r else r).deliveryId = r.deliveryId ∧
            (if r.id = j then applyRatingEdit de.ratings r else r).driverId = r.driverId := by
          by_cases hc : r.id = j
          · rw [if_pos hc]
            exact ⟨rfl, rfl, rfl⟩
          · rw [if_neg hc]
            exact ⟨rfl, rfl, rfl⟩
        exact ⟨r', hr', hid.trans hmeta.1, hdl.trans hmeta.2.1, hdr.trans hmeta.2.2⟩
      | none =>
        rw [processRatingEdits_cons_update_miss did db de rest j h1 h2]
        exact ih _ _ hr
    | none =>
      cases h3 : truthyNat de.driver_id with
      | some dId =>
        rw [processRatingEdits_cons_create did db de rest dId h1 h3]
        have hmem : r ∈ (createRatingFromEdit db did dId de.ratings).ratings := by
          simp only [createRatingFromEdit]
          exact List.mem_append.mpr (Or.inl hr)
        exact ih _ _ hmem
      | none =>
        rw [processRatingEdits_cons_skip did db de rest h1 h3]
        exact ih _ _ hr

theorem processRatingEdits_origin (did : Nat) :
    ∀ (drivers : List DriverEdit) (db : DB),
      (∀ r ∈ db.ratings, r.id < db.nextRatingId) →
      ∀ r' ∈ (processRatingEdits did db drivers).ratings,
        (∃ r ∈ db.ratings, r.id = r'.id ∧ r'.deliveryId = r.deliveryId ∧
          r'.driverId = r.driverId) ∨
        (db.nextRatingId ≤ r'.id ∧ r'.deliveryId = did ∧
          ∃ de ∈ drivers, truthyNat de.ratingId = none ∧
            truthyNat de.driver_id = some r'.driverId) := by
  intro drivers
  induction drivers with
  | nil =>
    intro db _ r' hr'
    exact Or.inl ⟨r', hr', rfl, rfl, rfl⟩
  | cons de rest ih =>
    intro db hfresh
    cases h1 : truthyNat de.ratingId with
    | some j =>
      cases h2 : findRating db j with
      | some rj =>
        rw [processRatingEdits_cons_update did db de rest j rj h1 h2]
        intro r' hr'
        rcases ih (updateRatingRow db j (applyRatingEdit de.ratings))
            (fresh_updateRatingRow db j (applyRatingEdit de.ratings) (fun r0 => rfl) hfresh)
            r' hr' with ⟨r0, hr0, hid, hdl, hdr⟩ | ⟨hge, hdl, de0, hde0, hn, hd⟩
        · simp only [updateRatingRow, updateWhere] at hr0
          obtain ⟨r1, hr1, hback⟩ := List.mem_map.mp hr0
          have hkey : r0.id = r1.id ∧ r0.deliveryId = r1.deliveryId ∧
              r0.driverId = r1.driverId := by
            rw [← hback]
            by_cases hc : r1.id = j
            · rw [if_pos hc]
              exact ⟨rfl, rfl, rfl⟩
            · rw [if_neg hc]
              exact ⟨rfl, rfl, rfl⟩
          refine Or.inl ⟨r1, hr1, ?_, ?_, ?_⟩
          · rw [← hkey.1]
            exact hid
          · rw [hdl]
            exact hkey.2.1
          · rw [hdr]
            exact hkey.2.2
        · exact Or.inr ⟨hge, hdl, de0, List.mem_cons_of_mem de hde0, hn, hd⟩
      | none =>
        rw [processRatingEdits_cons_update_miss did db de rest j h1 h2]
        intro r' hr'
        rcases ih db hfresh r' hr' with hl | ⟨hge, hdl, de0, hde0, hn, hd⟩
        · exact Or.inl hl
        · exact Or.inr ⟨hge, hdl, de0, List.mem_cons_of_mem de hde0, hn, hd⟩
    | none =>
      cases h3 : truthyNat de.driver_id with
      | some dId =>
        rw [processRatingEdits_cons_create did db de rest dId h1 h3]
        intro r' hr'
        rcases ih (createRatingFromEdit db did dId de.ratings)
            (fresh_createRatingFromEdit db did dId de.ratings hfresh)
            r' hr' with ⟨r0, hr0, hid, hdl, hdr⟩ | ⟨hge, hdl, de0, hde0, hn, hd⟩
        · simp only [createRatingFromEdit] at hr0
          rcases List.mem_append.mp hr0 with hmem | hmem
          · exact Or.inl ⟨r0, hmem, hid, hdl, hdr⟩
          · have hr0eq := List.mem_singleton.mp hmem
            refine Or.inr ⟨?_, ?_, de, List.mem_cons_self de rest, h1, ?_⟩
            · rw [← hid, hr0eq]
              exact Nat.le_refl db.nextRatingId
            · rw [hdl, hr0eq]
              rfl
            · rw [h3, hdr, hr0eq]
              rfl
        · refine Or.inr ⟨?_, hdl, de0, List.mem_cons_of_mem de hde0, hn, hd⟩
          exact Nat.le_of_succ_le hge
      | none =>
        rw [processRatingEdits_cons_skip did db de rest h1 h3]
        intro r' hr'
        rcases ih db hfresh r' hr' with hl | ⟨hge, hdl, de0, hde0, hn, hd⟩
        · exact Or.inl hl
        · exact Or.inr ⟨hge, hdl, de0, List.mem_cons_of_mem de hde0, hn, hd⟩

theorem processRatingEdits_find_untouched (did : Nat) :
    ∀ (drivers : List DriverEdit) (db : DB) (i : Nat),
      (∀ r ∈ db.ratings, r.id < db.nextRatingId) →
      i < db.nextRatingId →
      i ∉ extractSubmittedRatingIds drivers →
      findRating (processRatingEdits did db drivers) i = findRating db i := by
  intro drivers
  induction drivers with
  | nil =>
    intro db i _ _ _
    rfl
  | cons de rest ih =>
    intro db i hfresh hi hnot
    have hnotrest : i ∉ extractSubmittedRatingIds rest := by
      intro hmem
      apply hnot
      simp only [extractSubmittedRatingIds, List.map_cons, List.filterMap_cons]
      cases h : truthyNat de.ratingId
      · exact hmem
      · exact List.mem_cons_of_mem _ hmem
    cases h1 : truthyNat de.ratingId with
    | some j =>
      have hji : j ≠ i := by
        intro he
        apply hnot
        simp only [extractSubmittedRatingIds, List.map_cons, List.filterMap_cons, h1]
        rw [he]
        exact List.mem_cons_self i _
      cases h2 : findRating db j with
      | some rj =>
        rw [processRatingEdits_cons_update did db de rest j rj h1 h2]
        rw [ih (updateRatingRow db j (applyRatingEdit de.ratings)) i
          (fresh_updateRatingRow db j (applyRatingEdit de.ratings) (fun r0 => rfl) hfresh)
          hi hnotrest]
        rw [findRating_updateRatingRow db j (applyRatingEdit de.ratings) (fun r0 => rfl) i]
        cases hf : findRating db i with
        | none => rfl
        | some r =>
          have hidr : r.id = i := findRating_some_id db i r hf
          have hne : ¬ r.id = j := by
            rw [hidr]
            exact fun hc => hji hc.symm
          simp only [Option.map_some']
          rw [if_neg hne]
      | none =>
        rw [processRatingEdits_cons_update_miss did db de rest j h1 h2]
        exact ih db i hfresh hi hnotrest
    | none =>
      cases h3 : truthyNat de.driver_id with
      | some dId =>
        rw [processRatingEdits_cons_create did db de rest dId h1 h3]
        rw [ih (createRatingFromEdit db did dId de.ratings) i
          (fresh_createRatingFromEdit db did dId de.ratings hfresh)
          (Nat.lt_succ_of_lt hi) hnotrest]
        exact findRating_createRatingFromEdit db did dId de.ratings i hi
      | none =>
        rw [processRatingEdits_cons_skip did db de rest h1 h3]
        exact ih db i hfresh hi hnotrest

theorem processRatingEdits_find_hit (did : Nat) :
    ∀ (drivers : List DriverEdit) (db : DB) (de : DriverEdit) (i : Nat) (r : DriverRating),
      (∀ r0 ∈ db.ratings, r0.id < db.nextRatingId) →
      (extractSubmittedRatingIds drivers).Nodup →
      de ∈ drivers →
      truthyNat de.ratingId = some i →
      findRating db i = some r →
      findRating (processRatingEdits did db drivers) i =
        some (applyRatingEdit de.ratings r) := by
  intro drivers
  induction drivers with
  | nil =>
    intro db de i r _ _ hde _ _
    exact absurd hde (List.not_mem_nil de)
  | cons de' rest ih =>
    intro db de i r hfresh hnodup hde hty hfind
    cases h1 : truthyNat de'.ratingId with
    | some j =>
      have hext : extractSubmittedRatingIds (de' :: rest) =
          j :: extractSubmittedRatingIds rest := by
        simp only [extractSubmittedRatingIds, List.map_cons, List.filterMap_cons, h1]
      rw [hext] at hnodup
      have hjrest : j ∉ extractSubmittedRatingIds rest := (List.nodup_cons.mp hnodup).1
      have hnodup' : (extractSubmittedRatingIds rest).Nodup := (List.nodup_cons.mp hnodup).2
      rcases List.mem_cons.mp hde with hdd | hdd
      · subst hdd
        rw [h1] at hty
        have hij : j = i := Option.some.inj hty
        rw [← hij] at hfind ⊢
        have hmemr : r ∈ db.ratings := List.mem_of_find?_eq_some hfind
        have hidr : r.id = j := findRating_some_id db j r hfind
        have hilt : j < db.nextRatingId := hidr ▸ hfresh r hmemr
        rw [processRatingEdits_cons_update did db de rest j r h1 hfind]
        rw [processRatingEdits_find_untouched did rest
          (updateRatingRow db j (applyRatingEdit de.ratings)) j
          (fresh_updateRatingRow db j (applyRatingEdit de.ratings) (fun r0 => rfl) hfresh)
          hilt hjrest]
        rw [findRating_updateRatingRow db j (applyRatingEdit de.ratings) (fun r0 => rfl) j,
          hfind]
        simp only [Option.map_some']
        rw [if_pos hidr]
      · have hirest : i ∈ extractSubmittedRatingIds rest := by
          simp only [extractSubmittedRatingIds]
          exact List.mem_filterMap.mpr ⟨de.ratingId, List.mem_map.mpr ⟨de, hdd, rfl⟩, hty⟩
        have hji2 : j ≠ i := by
          intro he
          apply hjrest
          rw [he]
          exact hirest
        cases h2 : findRating db j with
        | some rj =>
          rw [processRatingEdits_cons_update did db de' rest j rj h1 h2]
          refine ih (updateRatingRow db j (applyRatingEdit de'.ratings)) de i r
            (fresh_updateRatingRow db j (applyRatingEdit de'.ratings) (fun r0 => rfl) hfresh)
            hnodup' hdd hty ?_
          have hidr : r.id = i := findRating_some_id db i r hfind
          have hne : ¬ r.id = j := by
            rw [hidr]
            exact fun hc => hji2 hc.symm
          rw [findRating_updateRatingRow db j (applyRatingEdit de'.ratings) (fun r0 => rfl) i,
            hfind]
          simp only [Option.map_some']
          rw [if_neg hne]
        | none =>
          rw [processRatingEdits_cons_update_miss did db de' rest j h1 h2]
          exact ih db de i r hfresh hnodup' hdd hty hfind
    | none =>
      have hext : extractSubmittedRatingIds (de' :: rest) =
          extractSubmittedRatingIds rest := by
        simp only [extractSubmittedRatingIds, List.map_cons, List.filterMap_cons, h1]
      rw [hext] at hnodup
      rcases List.mem_cons.mp hde with hdd | hdd
      · subst hdd
        rw [h1] at hty
        exact Option.noConfusion hty
      · cases h3 : truthyNat de'.driver_id with
        | some dId =>
          have hmemr : r ∈ db.ratings := List.mem_of_find?_eq_some hfind
          have hidr : r.id = i := findRating_some_id db i r hfind
          have hilt : i < db.nextRatingId := hidr ▸ hfresh r hmemr
          rw [processRatingEdits_cons_create did db de' rest dId h1 h3]
          refine ih (createRatingFromEdit db did dId de'.ratings) de i r
            (fresh_createRatingFromEdit db did dId de'.ratings hfresh) hnodup hdd hty ?_
          rw [findRating_createRatingFromEdit db did dId de'.ratings i hilt]
          exact hfind
        | none =>
          rw [processRatingEdits_cons_skip did db de' rest h1 h3]
          exact ih db de i r hfresh hnodup hdd hty hfind

theorem processRatingEdits_creates (did : Nat) :
    ∀ (drivers : List DriverEdit) (db : DB) (de : DriverEdit) (dId : Nat),
      de ∈ drivers →
      truthyNat de.ratingId = none →
      truthyNat de.driver_id = some dId →
      ∃ r' ∈ (processRatingEdits did db drivers).ratings,
        db.nextRatingId ≤ r'.id ∧ r'.deliveryId = did ∧ r'.driverId = dId := by
  intro drivers
  induction drivers with
  | nil =>
    intro db de dId hde _ _
    exact absurd hde (List.not_mem_nil de)
  | cons de' rest ih =>
    intro db de dId hde hnone hdrv
    rcases List.mem_cons.mp hde with hdd | hdd
    · subst hdd
      rw [processRatingEdits_cons_create did db de rest dId hnone hdrv]
      have hmem : newRatingFromEdit db did dId de.ratings ∈
          (createRatingFromEdit db did dId de.ratings).ratings := by
        simp only [createRatingFromEdit]
        exact List.mem_append.mpr (Or.inr (List.mem_singleton.mpr rfl))
      obtain ⟨r', hr', hid, hdl, hdr⟩ :=
        processRatingEdits_survives did rest (createRatingFromEdit db did dId de.ratings)
          (newRatingFromEdit db did dId de.ratings) hmem
      refine ⟨r', hr', ?_, ?_, ?_⟩
      · rw [hid]
        exact Nat.le_refl db.nextRatingId
      · rw [hdl]
        rfl
      · rw [hdr]
        rfl
    · cases h1 : truthyNat de'.ratingId with
      | some j =>
        cases h2 : findRating db j with
        | some rj =>
          rw [processRatingEdits_cons_update did db de' rest j rj h1 h2]
          obtain ⟨r', hr', hge, hdl, hdr⟩ :=
            ih (updateRatingRow db j (applyRatingEdit de'.ratings)) de dId hdd hnone hdrv
          exact ⟨r', hr', hge, hdl, hdr⟩
        | none =>
          rw [processRatingEdits_cons_update_miss did db de' rest j h1 h2]
          exact ih db de dId hdd hnone hdrv
      | none =>
        cases h3 : truthyNat de'.driver_id with
        | some dId' =>
          rw [processRatingEdits_cons_create did db de' rest dId' h1 h3]
          obtain ⟨r', hr', hge, hdl, hdr⟩ :=
            ih (createRatingFromEdit db did dId' de'.ratings) de dId hdd hnone hdrv
          refine ⟨r', hr', ?_, hdl, hdr⟩
          exact Nat.le_of_succ_le hge
        | none =>
          rw [processRatingEdits_cons_skip did db de' rest h1 h3]
          exact ih db de dId hdd hnone hdrv

theorem processRatingEdits_fresh_count (did : Nat) (B : Nat) :
    ∀ (drivers : List DriverEdit) (db : DB),
      B ≤ db.nextRatingId →
      ((processRatingEdits did db drivers).ratings.countP (fun r => decide (B ≤ r.id))) =
        db.ratings.countP (fun r => decide (B ≤ r.id)) +
        drivers.countP (fun de => (truthyNat de.ratingId).isNone &&
          (truthyNat de.driver_id).isSome) := by
  intro drivers
  induction drivers with
  | nil =>
    intro db _
    simp [processRatingEdits]
  | cons de rest ih =>
    intro db hB
    cases h1 : truthyNat de.ratingId with
    | some j =>
      have hcnt0 : ((de :: rest).countP (fun d => (truthyNat d.ratingId).isNone &&
          (truthyNat d.driver_id).isSome)) =
          rest.countP (fun d => (truthyNat d.ratingId).isNone &&
            (truthyNat d.driver_id).isSome) := by
        rw [List.countP_cons]
        simp [h1]
      rw [hcnt0]
      cases h2 : findRating db j with
      | some rj =>
        rw [processRatingEdits_cons_update did db de rest j rj h1 h2]
        rw [ih (updateRatingRow db j (applyRatingEdit de.ratings)) hB]
        have hcnt : ((updateRatingRow db j (applyRatingEdit de.ratings)).ratings.countP
            (fun r => decide (B ≤ r.id))) =
            db.ratings.countP (fun r => decide (B ≤ r.id)) := by
          show ((db.ratings.map (fun a => if a.id = j then applyRatingEdit de.ratings a
            else a)).countP (fun r => decide (B ≤ r.id))) = _
          rw [List.countP_map]
          apply List.countP_congr
          intro a _
          simp only [Function.comp]
          have hid : ((if a.id = j then applyRatingEdit de.ratings a else a).id) = a.id := by
            by_cases hc : a.id = j
            · rw [if_pos hc]
              rfl
            · rw [if_neg hc]
          rw [hid]
        rw [hcnt]
      | none =>
        rw [processRatingEdits_cons_update_miss did db de rest j h1 h2]
        exact ih db hB
    | none =>
      cases h3 : truthyNat de.driver_id with
      | some dId =>
        have hcnt1 : ((de :: rest).countP (fun d => (truthyNat d.ratingId).isNone &&
            (truthyNat d.driver_id).isSome)) =
            rest.countP (fun d => (truthyNat d.ratingId).isNone &&
              (truthyNat d.driver_id).isSome) + 1 := by
          rw [List.countP_cons]
          simp [h1, h3]
        rw [hcnt1]
        rw [processRatingEdits_cons_create did db de rest dId h1 h3]
        rw [ih (createRatingFromEdit db did dId de.ratings) (Nat.le_succ_of_le hB)]
        have hcnt2 : ((createRatingFromEdit db did dId de.ratings).ratings.countP
            (fun r => decide (B ≤ r.id))) =
            db.ratings.countP (fun r => decide (B ≤ r.id)) + 1 := by
          show ((db.ratings ++ [newRatingFromEdit db did dId de.ratings]).countP
            (fun r => decide (B ≤ r.id))) = _
          rw [List.countP_append]
          have hone : (([newRatingFromEdit db did dId de.ratings] :
              List DriverRating).countP (fun r => decide (B ≤ r.id))) = 1 := by
            have hle : B ≤ (newRatingFromEdit db did dId de.ratings).id := hB
            simp [List.countP_cons, hle]
          rw [hone]
        rw [hcnt2]
        omega
      | none =>
        have hcnt0 : ((de :: rest).countP (fun d => (truthyNat d.ratingId).isNone &&
            (truthyNat d.driver_id).isSome)) =
            rest.countP (fun d => (truthyNat d.ratingId).isNone &&
              (truthyNat d.driver_id).isSome) := by
          rw [List.countP_cons]
          simp [h3]
        rw [hcnt0]
        rw [processRatingEdits_cons_skip did db de rest h1 h3]
        exact ih db hB

theorem updateDelivery_reduction (db : DB) (rid : Nat) (upd : UpdateDeliveryData)
    (del : Delivery) (drivers : List DriverEdit)
    (hfdel : findDeliveryByRequest db rid = some del)
    (hdrv : upd.drivers = some drivers) :
    ∃ dbB : DB,
      updateDelivery db rid upd = (processRatingEdits del.id dbB drivers, Except.ok ()) ∧
      dbB.ratings = db.ratings.filter (fun r => decide (¬
        ((findRatingsToDelete (ratingsForDelivery db del.id)
          (extractSubmittedRatingIds drivers)).map (fun x => x.id)).contains r.id)) ∧
      dbB.nextRatingId = db.nextRatingId := by
  cases hud : upd.delivery with
  | none =>
    refine ⟨deleteRatingsStep db del.id (extractSubmittedRatingIds drivers), ?_, ?_, ?_⟩
    · simp only [updateDelivery, hfdel, hud, hdrv]
    · exact deleteRatingsStep_ratings db del.id (extractSubmittedRatingIds drivers)
    · exact deleteRatingsStep_next db del.id (extractSubmittedRatingIds drivers)
  | some f =>
    refine ⟨deleteRatingsStep (updateDeliveryRow db del.id (applyDeliveryFields f)) del.id
      (extractSubmittedRatingIds drivers), ?_, ?_, ?_⟩
    · simp only [updateDelivery, hfdel, hud, hdrv]
    · exact deleteRatingsStep_ratings (updateDeliveryRow db del.id (applyDeliveryFields f))
        del.id (extractSubmittedRatingIds drivers)
    · exact deleteRatingsStep_next (updateDeliveryRow db del.id (applyDeliveryFields f))
        del.id (extractSubmittedRatingIds drivers)

/-- C8 counterexample: in `dbEdit` the delivery being edited (request 10)
is `dEditA` with id 1, and the rating with id 2 belongs to delivery 2,
not to `dEditA`; yet the call whose single `drivers` entry resubmits
ratingId 2 succeeds, deletes delivery 1's own rating and overwrites
delivery 2's rating (its punctuality moves from 1 to 5), because
`DriverRating.findByPk(ratingId)` never checks that the rating belongs to
the delivery being edited. So an entry carrying a `ratingId` does not
update "the rating with that id belonging to the delivery being edited":
it updates whatever rating in the store has that id, and the edited
delivery is left with no ratings. -/
theorem updateDelivery_cross_delivery_counterexample :
    (updateDelivery dbEdit 10 updCross).2 = Except.ok () ∧
    findDeliveryByRequest dbEdit 10 = some dEditA ∧
    rEditB ∈ dbEdit.ratings ∧ rEditB.deliveryId = 2 ∧ dEditA.id = 1 ∧
    (updateDelivery dbEdit 10 updCross).1.ratings = [applyRatingEdit reFive rEditB] ∧
    (applyRatingEdit reFive rEditB).deliveryId = 2 ∧
    (applyRatingEdit reFive rEditB).punctuality = some 5 ∧ rEditB.punctuality = some 1 ∧
    ratingsForDelivery (updateDelivery dbEdit 10 updCross).1 dEditA.id = [] := by
  refine ⟨rfl, rfl, by decide, rfl, rfl, rfl, rfl, rfl, rfl, rfl⟩

/-- C8 (amended): for an `updateDelivery` call that finds a delivery for
the request and supplies a `drivers` list — given distinct stored rating
ids below the id counter — the call succeeds and: (1) an existing rating
of the edited delivery keeps a row with its id exactly when its id is
among the submitted ratingIds; (2) ratings of other deliveries always
survive, keeping their `deliveryId`; (3) when the submitted ratingIds are
distinct, an entry carrying a truthy `ratingId` overwrites the rating
bearing that id wherever it is found in the store — there is no check
that it belongs to the delivery being edited; (4) every row of the final
store is either an original row (same id, `deliveryId` and `driverId`
unchanged) or a fresh row created for the edited delivery by an entry
that carries a truthy `driver_id` and no truthy `ratingId` — in
particular entries with neither identifier create and update nothing;
(5) conversely every entry carrying a truthy `driver_id` and no truthy
`ratingId` does create a rating linked to the edited delivery with that
driver id, and the number of fresh rows in the final store equals the
number of such creation entries. -/
theorem updateDelivery_rating_diff (db : DB) (rid : Nat) (upd : UpdateDeliveryData)
    (del : Delivery) (drivers : List DriverEdit)
    (hfdel : findDeliveryByRequest db rid = some del)
    (hdrv : upd.drivers = some drivers)
    (hfresh : ∀ r ∈ db.ratings, r.id < db.nextRatingId)
    (hids : (db.ratings.map (fun r => r.id)).Nodup) :
    (updateDelivery db rid upd).2 = Except.ok () ∧
    (∀ r ∈ db.ratings, r.deliveryId = del.id →
      ((∃ r' ∈ (updateDelivery db rid upd).1.ratings, r'.id = r.id) ↔
        r.id ∈ extractSubmittedRatingIds drivers)) ∧
    (∀ r ∈ db.ratings, r.deliveryId ≠ del.id →
      ∃ r' ∈ (updateDelivery db rid upd).1.ratings,
        r'.id = r.id ∧ r'.deliveryId = r.deliveryId) ∧
    ((extractSubmittedRatingIds drivers).Nodup →
      ∀ de ∈ drivers, ∀ (i : Nat) (r : DriverRating), truthyNat de.ratingId = some i →
        findRating db i = some r →
        findRating (updateDelivery db rid upd).1 i =
          some (applyRatingEdit de.ratings r)) ∧
    (∀ r' ∈ (updateDelivery db rid upd).1.ratings,
      (∃ r ∈ db.ratings, r.id = r'.id ∧ r'.deliveryId = r.deliveryId) ∨
      (db.nextRatingId ≤ r'.id ∧ r'.deliveryId = del.id ∧
        ∃ de ∈ drivers, truthyNat de.ratingId = none ∧
          truthyNat de.driver_id = some r'.driverId)) ∧
    (∀ de ∈ drivers, truthyNat de.ratingId = none →
      ∀ dId : Nat, truthyNat de.driver_id = some dId →
        ∃ r' ∈ (updateDelivery db rid upd).1.ratings,
          db.nextRatingId ≤ r'.id ∧ r'.deliveryId = del.id ∧ r'.driverId = dId) ∧
    ((updateDelivery db rid upd).1.ratings.countP
        (fun r' => decide (db.nextRatingId ≤ r'.id))) =
      drivers.countP (fun de => (truthyNat de.ratingId).isNone &&
        (truthyNat de.driver_id).isSome) := by
  obtain ⟨dbB, hEq, hBr, hBn⟩ := updateDelivery_reduction db rid upd del drivers hfdel hdrv
  have htd : ∀ x ∈ findRatingsToDelete (ratingsForDelivery db del.id)
      (extractSubmittedRatingIds drivers),
      x ∈ db.ratings ∧ x.deliveryId = del.id ∧
        x.id ∉ extractSubmittedRatingIds drivers := by
    intro x hx
    simp only [findRatingsToDelete, ratingsForDelivery] at hx
    have h1 := List.mem_filter.mp hx
    have h2 := List.mem_filter.mp h1.1
    have h3 := h1.2
    simp only [decide_eq_true_eq] at h3
    refine ⟨h2.1, ?_, ?_⟩
    · have h4 := h2.2
      simp only [decide_eq_true_eq] at h4
      exact h4
    · intro hmem
      exact h3 ((nat_contains_iff _ _).mpr hmem)
  have hkeepSub : ∀ y : DriverRating, y ∈ db.ratings →
      y.id ∈ extractSubmittedRatingIds drivers → y ∈ dbB.ratings := by
    intro y hy hsub
    rw [hBr]
    refine List.mem_filter.mpr ⟨hy, ?_⟩
    simp only [decide_eq_true_eq]
    intro hcont
    obtain ⟨x, hx, hxy⟩ := List.mem_map.mp ((nat_contains_iff _ _).mp hcont)
    have hxy' : x.id = y.id := hxy
    have h4 := (htd x hx).2.2
    rw [hxy'] at h4
    exact h4 hsub
  have hkeepOther : ∀ y : DriverRating, y ∈ db.ratings → y.deliveryId ≠ del.id →
      y ∈ dbB.ratings := by
    intro y hy hne
    rw [hBr]
    refine List.mem_filter.mpr ⟨hy, ?_⟩
    simp only [decide_eq_true_eq]
    intro hcont
    obtain ⟨x, hx, hxy⟩ := List.mem_map.mp ((nat_contains_iff _ _).mp hcont)
    have hxy' : x.id = y.id := hxy
    obtain ⟨hxdb, hxdel, _⟩ := htd x hx
    have hxey : x = y := List.inj_on_of_nodup_map hids hxdb hy hxy'
    rw [hxey] at hxdel
    exact hne hxdel
  have hdropped : ∀ y : DriverRating, y ∈ db.ratings → y.deliveryId = del.id →
      y.id ∉ extractSubmittedRatingIds drivers →
      ∀ z ∈ dbB.ratings, z.id ≠ y.id := by
    intro y hy hydel hysub z hz
    rw [hBr] at hz
    have h1 := List.mem_filter.mp hz
    have h2 := h1.2
    simp only [decide_eq_true_eq] at h2
    intro hzy
    apply h2
    apply (nat_contains_iff _ _).mpr
    refine List.mem_map.mpr ⟨y, ?_, ?_⟩
    · show y ∈ (ratingsForDelivery db del.id).filter (fun r =>
        decide (¬ (extractSubmittedRatingIds drivers).contains r.id))
      refine List.mem_filter.mpr ⟨?_, ?_⟩
      · show y ∈ db.ratings.filter (fun r => decide (r.deliveryId = del.id))
        refine List.mem_filter.mpr ⟨hy, ?_⟩
        simp [hydel]
      · simp only [decide_eq_true_eq]
        intro hcont2
        exact hysub ((nat_contains_iff _ _).mp hcont2)
    · exact hzy.symm
  have hfreshB : ∀ r0 ∈ dbB.ratings, r0.id < dbB.nextRatingId := by
    intro r0 hr0
    rw [hBr] at hr0
    rw [hBn]
    exact hfresh r0 (List.mem_filter.mp hr0).1
  rw [hEq]
  refine ⟨rfl, ?_, ?_, ?_, ?_, ?_, ?_⟩
  · intro r hr hrdel
    constructor
    · rintro ⟨r', hr', hid'⟩
      by_contra hnsub
      rcases processRatingEdits_origin del.id drivers dbB hfreshB r' hr' with
        ⟨r0, hr0, hid0, _, _⟩ | ⟨hge, _, _⟩
      · exact hdropped r hr hrdel hnsub r0 hr0 (hid0.trans hid')
      · have h5 : dbB.nextRatingId ≤ r'.id := hge
        rw [hBn, hid'] at h5
        have h6 := hfresh r hr
        omega
    · intro hsub
      obtain ⟨r', hr', hid', _, _⟩ :=
        processRatingEdits_survives del.id drivers dbB r (hkeepSub r hr hsub)
      exact ⟨r', hr', hid'⟩
  · intro r hr hrne
    obtain ⟨r', hr', hid', hdl', _⟩ :=
      processRatingEdits_survives del.id drivers dbB r (hkeepOther r hr hrne)
    exact ⟨r', hr', hid', hdl'⟩
  · intro hnodup de hde i r hty hfind
    have hidr : r.id = i := findRating_some_id db i r hfind
    have hmemr : r ∈ db.ratings := List.mem_of_find?_eq_some hfind
    have hsub : i ∈ extractSubmittedRatingIds drivers := by
      simp only [extractSubmittedRatingIds]
      exact List.mem_filterMap.mpr ⟨de.ratingId, List.mem_map.mpr ⟨de, hde, rfl⟩, hty⟩
    have hfindB : findRating dbB i = some r := by
      show dbB.ratings.find? (fun r0 => decide (r0.id = i)) = some r
      rw [hBr]
      have himp : ∀ a : DriverRating, (fun r0 => decide (r0.id = i)) a = true →
          (fun r0 => decide (¬ ((findRatingsToDelete (ratingsForDelivery db del.id)
            (extractSubmittedRatingIds drivers)).map (fun x => x.id)).contains r0.id)) a =
            true := by
        intro a ha
        simp only [decide_eq_true_eq] at ha ⊢
        intro hcont
        obtain ⟨x, hx, hxy⟩ := List.mem_map.mp ((nat_contains_iff _ _).mp hcont)
        have hxy' : x.id = a.id := hxy
        have h6 := (htd x hx).2.2
        rw [hxy', ha] at h6
        exact h6 hsub
      rw [find?_filter_of_imp (fun r0 => decide (r0.id = i))
        (fun r0 => decide (¬ ((findRatingsToDelete (ratingsForDelivery db del.id)
          (extractSubmittedRatingIds drivers)).map (fun x => x.id)).contains r0.id))
        db.ratings himp]
      exact hfind
    have hilt : i < dbB.nextRatingId := by
      rw [hBn]
      have h6 := hfresh r hmemr
      omega
    exact processRatingEdits_find_hit del.id drivers dbB de i r hfreshB hnodup hde hty hfindB
  · intro r' hr'
    rcases processRatingEdits_origin del.id drivers dbB hfreshB r' hr' with
      ⟨r0, hr0, hid0, hdl0, _⟩ | ⟨hge, hdl0, de0, hde0, hn, hd⟩
    · rw [hBr] at hr0
      exact Or.inl ⟨r0, (List.mem_filter.mp hr0).1, hid0, hdl0⟩
    · refine Or.inr ⟨?_, hdl0, de0, hde0, hn, hd⟩
      rw [hBn] at hge
      exact hge
  · intro de hde hnone dId hdId
    obtain ⟨r', hr', hge, hdl', hdr'⟩ :=
      processRatingEdits_creates del.id drivers dbB de dId hde hnone hdId
    refine ⟨r', hr', ?_, hdl', hdr'⟩
    rw [hBn] at hge
    exact hge
  · show ((processRatingEdits del.id dbB drivers).ratings.countP
      (fun r' => decide (db.nextRatingId ≤ r'.id))) = _
    have hBle : db.nextRatingId ≤ dbB.nextRatingId := by
      rw [hBn]
    have hzero : (dbB.ratings.countP (fun r' => decide (db.nextRatingId ≤ r'.id))) = 0 := by
      apply List.countP_eq_zero.mpr
      intro a ha
      have h6 := hfreshB a ha
      rw [hBn] at h6
      simp only [decide_eq_true_eq]
      omega
    rw [processRatingEdits_fresh_count del.id db.nextRatingId drivers dbB hBle, hzero]
    exact Nat.zero_add _

/-- Witness for C8: in the concrete two-delivery store the mixed call
succeeds, delivery 1's own rating (id 1, not resubmitted) keeps no row
exactly as the survivor-iff states, the entry resubmitting ratingId 2
overwrites the rating with id 2 even though it belongs to delivery 2,
and the creation entry (driver_id 2, no ratingId) creates exactly one
fresh rating linked to the edited delivery with driver 2. -/
theorem updateDelivery_rating_diff_witness :
    (updateDelivery dbEdit 10 updMixed).2 = Except.ok () ∧
    ((∃ r' ∈ (updateDelivery dbEdit 10 updMixed).1.ratings, r'.id = rEditA.id) ↔
      rEditA.id ∈ extractSubmittedRatingIds
        [⟨some 2, none, reFive⟩, ⟨none, some 2, reFive⟩]) ∧
    findRating (updateDelivery dbEdit 10 updMixed).1 2 =
      some (applyRatingEdit reFive rEditB) ∧
    (∃ r' ∈ (updateDelivery dbEdit 10 updMixed).1.ratings,
      dbEdit.nextRatingId ≤ r'.id ∧ r'.deliveryId = dEditA.id ∧ r'.driverId = 2) ∧
    ((updateDelivery dbEdit 10 updMixed).1.ratings.countP
      (fun r' => decide (dbEdit.nextRatingId ≤ r'.id))) = 1 := by
  have h := updateDelivery_rating_diff dbEdit 10 updMixed dEditA
    [⟨some 2, none, reFive⟩, ⟨none, some 2, reFive⟩] rfl rfl (by decide) (by decide)
  refine ⟨h.1, h.2.1 rEditA (by decide) (by decide), ?_, ?_, ?_⟩
  · exact h.2.2.2.1 (by decide) ⟨some 2, none, reFive⟩ (by decide) 2 rEditB
      (by decide) (by decide)
  · exact h.2.2.2.2.2.1 ⟨none, some 2, reFive⟩ (by decide) (by decide) 2 (by decide)
  · exact (h.2.2.2.2.2.2).trans (by decide)

end Transporter
